import Mathlib

/-!
Verification development for the name-variation generation pipeline
(`neurons/parse_query/parse_query.py`, `neurons/name/name.py`,
`neurons/name/rule_based_variations.py`,
`neurons/name/non_rule_based_variations.py`).

Strings are modelled as `List Char`; Python's `str.lower` is modelled by
`Char.toLower` mapped over the characters.  Python's global random number
generator is modelled by an explicit stream `Nat → Nat` together with a
position counter; `random.randint`, `random.choice`, `random.sample` and
`random.shuffle` consume successive stream values.  Floating point
percentages are modelled by rationals (the parser only ever produces
integer percentages divided by 100).  Unbounded `while` loops of the
source are modelled with an explicit fuel parameter and an `Option`
result; loops the source bounds by an attempt counter are modelled by
structural recursion on that counter.
-/

namespace JH80

abbrev Str := List Char

/-- Python `s.lower()` (ASCII model). -/
def lowerStr (s : Str) : Str := s.map Char.toLower

/-- Python truncating conversion `int(q)` (rounds toward zero). -/
def pyTrunc (q : ℚ) : ℤ := if 0 ≤ q then ⌊q⌋ else ⌈q⌉

/-- Python slicing helper `l[:i] + l[i+1:]` (delete the character at `i`). -/
def removeAt (s : Str) (i : Nat) : Str := s.take i ++ s.drop (i + 1)

/-- Python slicing helper `l[:i] + [c] + l[i:]` (insert `c` at `i`). -/
def insertAt (s : Str) (i : Nat) (c : Char) : Str := s.take i ++ [c] ++ s.drop i

/-- Python `name[:idx] + name[idx+1] + name[idx] + name[idx+2:]`
(swap the adjacent characters at `idx`, `idx+1`). -/
def swapAdj (s : Str) (i : Nat) : Str :=
  s.take i ++ [s.getD (i + 1) ' ', s.getD i ' '] ++ s.drop (i + 2)

/-- Python substring test `pat in s` (empty pattern always matches). -/
def containsSub (pat : Str) : Str → Bool
  | [] => pat.isEmpty
  | c :: rest => pat.isPrefixOf (c :: rest) || containsSub pat rest

/-- Python `s.replace(pat, rep)`: replace all non-overlapping occurrences,
scanning left to right.  (All patterns used by the source are nonempty;
an empty pattern is returned unchanged.) -/
def replaceAll (pat rep : Str) (s : Str) : Str :=
  if h : pat = [] then s
  else
    match s with
    | [] => []
    | c :: rest =>
      if pat.isPrefixOf (c :: rest) then
        rep ++ replaceAll pat rep ((c :: rest).drop pat.length)
      else
        c :: replaceAll pat rep rest
termination_by s.length
decreasing_by
  · simp only [List.length_drop, List.length_cons]
    have : 0 < pat.length := List.length_pos.mpr h
    omega
  · simp [List.length_cons]

/-- Python `str.split()` (split on whitespace runs, dropping empties):
worker carrying the reversed current run. -/
def splitWsGo : Str → Str → List Str
  | [], cur => if cur = [] then [] else [cur.reverse]
  | c :: rest, cur =>
    if c.isWhitespace then
      if cur = [] then splitWsGo rest [] else cur.reverse :: splitWsGo rest []
    else splitWsGo rest (c :: cur)

/-- Python `str.split()` with no arguments. -/
def splitWs (s : Str) : List Str := splitWsGo s []

/-- Python `sep.join(parts)`. -/
def joinSep (sep : Str) : List Str → Str
  | [] => []
  | [x] => x
  | x :: y :: xs => x ++ sep ++ joinSep sep (y :: xs)

/-- Random source: a stream of naturals together with a read position. -/
abbrev RStream := Nat → Nat

/-- Model of `random.randint(a, b)` (inclusive bounds, callers ensure `a ≤ b`). -/
def randint (r : RStream) (p a b : Nat) : Nat × Nat :=
  (a + r p % (b - a + 1), p + 1)

/-- Model of `random.choice(l)` for nonempty `l` (callers guard emptiness). -/
def choiceL (r : RStream) (p : Nat) (l : List α) (dflt : α) : α × Nat :=
  (l.getD (r p % l.length) dflt, p + 1)

end JH80

namespace JH80.ParseQuery

/-! ### `neurons/parse_query/parse_query.py`

The regular-expression cascade of the parser is embedded by a small
pattern language.  Each `re` pattern of the source is rendered as a
`List PatTok`; `searchPat` mirrors `re.search` with `re.I` (leftmost
match, case-insensitive literals), returning the captured groups. -/

/-- Pattern tokens: case-insensitive literal, one-or-more / zero-or-more
character classes, a capturing digit run `(\d+)`, a capturing
one-or-more run of characters satisfying a predicate (for `([^)]+)`
and the like), an optional group `(?:...)?`, and a lazy `.*?`. -/
inductive PatTok where
  | lit (s : Str)
  | plusPred (p : Char → Bool)
  | starPred (p : Char → Bool)
  | digits
  | capPred (p : Char → Bool)
  | opt (ts : List PatTok)
  | lazyAny
  deriving Inhabited

/-- Case-insensitive literal match at the head of the input. -/
def litMatch : Str → Str → Option Str
  | [], s => some s
  | _ :: _, [] => none
  | c :: cs, d :: ds =>
    if c.toLower = d.toLower then litMatch cs ds else none

mutual

/-- Number of tokens, counting the contents of optional groups
(used to provision the matcher's fuel). -/
def tokCount : PatTok → Nat
  | .opt ts => 1 + toksCount ts
  | _ => 1

def toksCount : List PatTok → Nat
  | [] => 0
  | t :: ts => tokCount t + toksCount ts

end

mutual

/-- Match a token list at the head of `s`; return captures and the rest.
Every recursive call consumes a token or a character, so
`toksCount ts + s.length + 1` fuel always suffices (`searchPat`
provisions exactly that). -/
def matchToks : Nat → List PatTok → Str → Option (List Str × Str)
  | 0, _, _ => none
  | _ + 1, [], s => some ([], s)
  | fuel + 1, PatTok.lit lit :: ts, s =>
    match litMatch lit s with
    | some rest => matchToks fuel ts rest
    | none => none
  | fuel + 1, PatTok.plusPred p :: ts, s =>
    let run := s.takeWhile p
    if run.isEmpty then none else matchToks fuel ts (s.dropWhile p)
  | fuel + 1, PatTok.starPred p :: ts, s => matchToks fuel ts (s.dropWhile p)
  | fuel + 1, PatTok.digits :: ts, s =>
    let run := s.takeWhile Char.isDigit
    if run.isEmpty then none
    else
      match matchToks fuel ts (s.dropWhile Char.isDigit) with
      | some (caps, rest) => some (run :: caps, rest)
      | none => none
  | fuel + 1, PatTok.capPred p :: ts, s =>
    let run := s.takeWhile p
    if run.isEmpty then none
    else
      match matchToks fuel ts (s.dropWhile p) with
      | some (caps, rest) => some (run :: caps, rest)
      | none => none
  | fuel + 1, PatTok.opt inner :: ts, s =>
    match matchToks fuel (inner ++ ts) s with
    | some res => some res
    | none => matchToks fuel ts s
  | fuel + 1, PatTok.lazyAny :: ts, s => matchLazy fuel ts s

/-- Lazy `.*?`: try the continuation at every position, shortest first. -/
def matchLazy : Nat → List PatTok → Str → Option (List Str × Str)
  | 0, _, _ => none
  | fuel + 1, ts, [] => matchToks fuel ts []
  | fuel + 1, ts, c :: rest =>
    match matchToks fuel ts (c :: rest) with
    | some res => some res
    | none => matchLazy fuel ts rest

end

/-- `re.search`: try a match at every start position, leftmost first. -/
def searchPat (ts : List PatTok) : Str → Option (List Str)
  | [] =>
    match matchToks (toksCount ts + 1) ts [] with
    | some (caps, _) => some caps
    | none => none
  | c :: rest =>
    match matchToks (toksCount ts + (c :: rest).length + 1) ts (c :: rest) with
    | some (caps, _) => some caps
    | none => searchPat ts rest

/-- Decimal digit run to a natural number. -/
def digitsToNat (s : Str) : Nat :=
  s.foldl (fun acc c => acc * 10 + (c.toNat - '0'.toNat)) 0

/-- `\s+` -/
def ws1 : PatTok := PatTok.plusPred Char.isWhitespace

/-- `\s*` -/
def ws0 : PatTok := PatTok.starPred Char.isWhitespace

/-- Try a list of patterns in order; first match wins
(the per-field cascade of the parser). -/
def firstMatch (pats : List (List PatTok)) (s : Str) : Option (List Str) :=
  match pats with
  | [] => none
  | p :: rest =>
    match searchPat p s with
    | some caps => some caps
    | none => firstMatch rest s

/-- The four patterns of `_extract_variation_count`, in source order. -/
def countPatterns : List (List PatTok) :=
  [ [PatTok.lit "Generate".data, ws1, PatTok.lit "exactly".data, ws1, PatTok.digits,
     ws1, PatTok.opt [PatTok.lit "name".data, ws1], PatTok.lit "variations".data],
    [PatTok.lit "Generate".data, ws1, PatTok.digits, ws1,
     PatTok.opt [PatTok.lit "name".data, ws1], PatTok.lit "variations".data],
    [PatTok.lit "exactly".data, ws1, PatTok.digits, ws1,
     PatTok.opt [PatTok.lit "name".data, ws1], PatTok.lit "variations".data],
    [PatTok.digits, ws1, PatTok.lit "variations".data, ws1, PatTok.lit "of".data] ]

/-- `_extract_variation_count`. -/
def extract_variation_count (q : Str) : Option Nat :=
  match firstMatch countPatterns q with
  | some (d :: _) => some (digitsToNat d)
  | _ => none

/-- The six patterns of `_extract_rule_percentage`, in source order. -/
def rulePctPatterns : List (List PatTok) :=
  [ [PatTok.lit "approximately".data, ws1, PatTok.digits, PatTok.lit "%".data,
     ws1, PatTok.lit "of".data],
    [PatTok.lit "also".data, ws1, PatTok.lit "include".data, ws1, PatTok.digits,
     PatTok.lit "%".data, ws1, PatTok.lit "of".data],
    [PatTok.digits, PatTok.lit "%".data, ws1, PatTok.lit "of".data, ws1,
     PatTok.lit "the".data, ws1, PatTok.lit "total".data],
    [PatTok.digits, PatTok.lit "%".data, ws1, PatTok.lit "of".data, ws1,
     PatTok.lit "variations".data],
    [PatTok.lit "include".data, ws1, PatTok.digits, PatTok.lit "%".data],
    [PatTok.digits, PatTok.lit "%".data, ws1, PatTok.lit "should".data, ws1,
     PatTok.lit "follow".data] ]

/-- `_extract_rule_percentage` (percent value divided by 100). -/
def extract_rule_percentage (q : Str) : Option ℚ :=
  match firstMatch rulePctPatterns q with
  | some (d :: _) => some ((digitsToNat d : ℚ) / 100)
  | _ => none

/-- One clause of `_extract_rules`: if any phrase occurs in the lowered
query, append the rule identifier. -/
def ruleClause (ql : Str) (phrases : List String) (rid : String)
    (acc : List String) : List String :=
  if phrases.any (fun ph => containsSub ph.data ql) then acc ++ [rid] else acc

/-- `_extract_rules`: the comprehensive phrase checks, in source order,
followed by order-preserving deduplication. -/
def extract_rules (q : Str) : List String :=
  let ql := lowerStr q
  let rules : List String :=
    ruleClause ql ["replace spaces with special characters",
      "replace spaces with random special characters"]
      "replace_spaces_with_special_characters" [] |>
    ruleClause ql ["replace double letters", "replace double letters with single letter"]
      "replace_double_letters" |>
    ruleClause ql ["replace random vowels", "replace vowels with different vowels"]
      "replace_random_vowels" |>
    ruleClause ql ["replace random consonants", "replace consonants with different consonants"]
      "replace_random_consonants" |>
    ruleClause ql ["swap adjacent consonants"] "swap_adjacent_consonants" |>
    ruleClause ql ["swap adjacent syllables"] "swap_adjacent_syllables" |>
    ruleClause ql ["swap random letter", "swap random adjacent letters"]
      "swap_random_letter" |>
    ruleClause ql ["delete a random letter", "delete random letter"]
      "delete_random_letter" |>
    ruleClause ql ["remove random vowel", "remove a random vowel"]
      "remove_random_vowel" |>
    ruleClause ql ["remove random consonant", "remove a random consonant"]
      "remove_random_consonant" |>
    ruleClause ql ["remove all spaces", "remove spaces"] "remove_all_spaces" |>
    ruleClause ql ["duplicate a random letter", "duplicate random letter"]
      "duplicate_random_letter" |>
    ruleClause ql ["insert random letter", "insert a random letter"]
      "insert_random_letter" |>
    ruleClause ql ["add a title prefix", "title prefix", "add title prefix"]
      "add_title_prefix" |>
    ruleClause ql ["add a title suffix", "title suffix", "add title suffix"]
      "add_title_suffix" |>
    ruleClause ql ["use first name initial", "first name initial with last name"]
      "initial_only_first_name" |>
    ruleClause ql ["convert name to initials", "shorten name to initials"]
      "shorten_to_initials" |>
    ruleClause ql ["abbreviate name parts", "abbreviate", "shorten name to abbreviations"]
      "abbreviate_name_parts" |>
    ruleClause ql ["reorder name parts", "reorder parts", "name parts permutations"]
      "reorder_name_parts" |>
    ruleClause ql ["transliterate"] "transliterate" |>
    ruleClause ql ["add special characters"] "add_special_characters"
  rules.foldl (fun acc rid => if rid ∈ acc then acc else acc ++ [rid]) []

/-- A Light/Medium/Far distribution (keys may be absent, as in the
Python dict). -/
structure SimDist where
  light : Option ℚ
  medium : Option ℚ
  far : Option ℚ
  deriving DecidableEq, Repr

/-- Empty distribution (`{}` in the source). -/
def SimDist.empty : SimDist := ⟨none, none, none⟩

/-- Python `dict.get(key, 0)` on a distribution, tier by name. -/
def SimDist.getL (d : SimDist) : ℚ := d.light.getD 0

def SimDist.getM (d : SimDist) : ℚ := d.medium.getD 0

def SimDist.getF (d : SimDist) : ℚ := d.far.getD 0

/-- Inner extraction `(\d+)%\s*Light` (and Medium / Far) on the matched
similarity text. -/
def tierPct (tier : String) (txt : Str) : Option ℚ :=
  match searchPat [PatTok.digits, PatTok.lit "%".data, ws0, PatTok.lit tier.data] txt with
  | some (d :: _) => some ((digitsToNat d : ℚ) / 100)
  | _ => none

/-- Build the distribution from a similarity text; `none` when no tier
matched (the `if phonetic_sim: break` test of the source). -/
def tiersOf (txt : Str) : Option SimDist :=
  let l := tierPct "Light" txt
  let m := tierPct "Medium" txt
  let f := tierPct "Far" txt
  if l.isSome || m.isSome || f.isSome then some ⟨l, m, f⟩ else none

/-- The three patterns of `_extract_phonetic_similarity` /
`_extract_orthographic_similarity` for a given leading keyword:
`kw\s+similarity\s*\(([^)]+)\)`, then `kw\s+similarity[:\s]+([^.]+)`,
then `kw.*?Light[:\s]+(\d+)%.*?Medium[:\s]+(\d+)%.*?Far[:\s]+(\d+)%`. -/
def simPatterns (kw : String) : List (List PatTok) :=
  [ [PatTok.lit kw.data, ws1, PatTok.lit "similarity".data, ws0, PatTok.lit "(".data,
     PatTok.capPred (fun c => c ≠ ')'), PatTok.lit ")".data],
    [PatTok.lit kw.data, ws1, PatTok.lit "similarity".data,
     PatTok.plusPred (fun c => c = ':' || c.isWhitespace),
     PatTok.capPred (fun c => c ≠ '.')],
    [PatTok.lit kw.data, PatTok.lazyAny, PatTok.lit "Light".data,
     PatTok.plusPred (fun c => c = ':' || c.isWhitespace), PatTok.digits,
     PatTok.lit "%".data, PatTok.lazyAny, PatTok.lit "Medium".data,
     PatTok.plusPred (fun c => c = ':' || c.isWhitespace), PatTok.digits,
     PatTok.lit "%".data, PatTok.lazyAny, PatTok.lit "Far".data,
     PatTok.plusPred (fun c => c = ':' || c.isWhitespace), PatTok.digits,
     PatTok.lit "%".data] ]

/-- Pattern cascade shared by the two similarity extractors.  A match with
one capture yields that capture as the similarity text; the three-group
pattern yields the whole query (`match.group(0)` on a `.*`-style pattern
reaches all three tier phrases).  The loop breaks at the first pattern
whose extracted tiers are non-empty. -/
def extract_similarity (kw : String) (q : Str) : SimDist :=
  let step (pat : List PatTok) : Option SimDist :=
    match searchPat pat q with
    | some caps =>
      let txt := if caps.length = 1 then caps.headD [] else q
      tiersOf txt
    | none => none
  match (simPatterns kw).foldl
      (fun acc pat => match acc with | some d => some d | none => step pat) none with
  | some d => d
  | none => SimDist.empty

/-- `_extract_phonetic_similarity`. -/
def extract_phonetic_similarity (q : Str) : SimDist := extract_similarity "phonetic" q

/-- `_extract_orthographic_similarity`. -/
def extract_orthographic_similarity (q : Str) : SimDist :=
  extract_similarity "orthographic" q

/-- `_extract_uav_seed`: `For the seed "([^"]+)" ONLY`. -/
def extract_uav_seed (q : Str) : Option Str :=
  match searchPat
      [PatTok.lit "For".data, ws1, PatTok.lit "the".data, ws1, PatTok.lit "seed".data,
       ws1, PatTok.lit "\"".data, PatTok.capPred (fun c => c ≠ '"'),
       PatTok.lit "\"".data, ws1, PatTok.lit "ONLY".data] q with
  | some (s :: _) => some s
  | _ => none

/-- The parsed requirement object of `parse_query_template`. -/
structure Requirements where
  variation_count : Nat
  rule_percentage : ℚ
  rules : List String
  phonetic_similarity : SimDist
  orthographic_similarity : SimDist
  uav_seed_name : Option Str
  deriving DecidableEq, Repr

/-- `parse_query_template`: defaults, then field-by-field extraction. -/
def parse_query_template (q : Str) : Requirements :=
  let vc := (extract_variation_count q).getD 15
  let rp := (extract_rule_percentage q).getD 0
  let rules := extract_rules q
  { variation_count := vc
    rule_percentage := rp
    rules := rules
    phonetic_similarity := extract_phonetic_similarity q
    orthographic_similarity := extract_orthographic_similarity q
    uav_seed_name := extract_uav_seed q }

/-- `get_similarity_counts`: truncated base counts, then the shortfall is
added to the largest tier (Medium on ties, then Light). -/
def get_similarity_counts (variation_count : Nat) (d : SimDist) : ℤ × ℤ × ℤ :=
  let light_count := pyTrunc ((variation_count : ℚ) * d.getL)
  let medium_count := pyTrunc ((variation_count : ℚ) * d.getM)
  let far_count := pyTrunc ((variation_count : ℚ) * d.getF)
  let total := light_count + medium_count + far_count
  if total < (variation_count : ℤ) then
    if medium_count ≥ light_count ∧ medium_count ≥ far_count then
      (light_count, medium_count + ((variation_count : ℤ) - total), far_count)
    else if light_count ≥ far_count then
      (light_count + ((variation_count : ℤ) - total), medium_count, far_count)
    else
      (light_count, medium_count, far_count + ((variation_count : ℤ) - total))
  else
    (light_count, medium_count, far_count)

/-- `calculate_rule_count`: `math.ceil(variation_count * rule_percentage)`. -/
def calculate_rule_count (variation_count : Nat) (rule_percentage : ℚ) : ℤ :=
  ⌈(variation_count : ℚ) * rule_percentage⌉

end JH80.ParseQuery

namespace JH80.NonRule

/-! ### `neurons/name/non_rule_based_variations.py` -/

/-- `\w` of the `re` module (ASCII model). -/
def wordChar (c : Char) : Bool := c.isAlphanum || c = '_'

/-- Is the character at index `i` a word character (out of range counts
as non-word)? -/
def wcAt (s : Str) (i : Nat) : Bool :=
  match s.drop i with
  | [] => false
  | c :: _ => wordChar c

/-- `\b`: word boundary before index `i`. -/
def boundaryAt (s : Str) (i : Nat) : Bool :=
  (if i = 0 then false else wcAt s (i - 1)) != wcAt s i

/-- `re.search(r'\b' + word + r'\b', s)` for a literal word. -/
def containsWordBounded (w : Str) (s : Str) : Bool :=
  (List.range (s.length + 1)).any fun i =>
    w.isPrefixOf (s.drop i) && boundaryAt s i && boundaryAt s (i + w.length)

/-- `re.search(r'\d', s)`. -/
def containsDigit (s : Str) : Bool := s.any Char.isDigit

/-- The `address_indicators` list of `_looks_like_address`. -/
def address_indicators : List String :=
  ["street", "st", "avenue", "ave", "road", "rd", "drive", "dr",
   "lane", "ln", "court", "ct", "place", "pl", "boulevard", "blvd",
   "apt", "apartment", "suite", "unit", "floor", "building",
   "north", "south", "east", "west", "n", "s", "e", "w",
   "p.o.", "po", "box", "city", "town", "zip"]

/-- `_looks_like_address`. -/
def looks_like_address (text : Str) : Bool :=
  if text = [] then false
  else if containsDigit text then true
  else
    let tl := lowerStr text
    address_indicators.any fun ind => containsWordBounded ind.data tl

/-- The `months` list of `_looks_like_dob`. -/
def months : List String :=
  ["january", "february", "march", "april", "may", "june",
   "july", "august", "september", "october", "november", "december",
   "jan", "feb", "mar", "apr", "jun", "jul", "aug", "sep", "oct", "nov", "dec"]

/-- The `date_words` list of `_looks_like_dob`. -/
def date_words : List String :=
  ["birth", "birthday", "born", "date", "dob", "age", "year", "old"]

/-- `_looks_like_dob`. -/
def looks_like_dob (text : Str) : Bool :=
  if text = [] then false
  else if containsDigit text then true
  else
    let tl := lowerStr text
    months.any (fun m => containsWordBounded m.data tl) ||
      date_words.any (fun w => containsWordBounded w.data tl)

/-- The `generic_words` list of `_contains_problematic_patterns`. -/
def generic_words : List String :=
  ["unknown", "none", "null", "n/a", "na", "test", "example",
   "sample", "temp", "dummy", "default", "user", "admin",
   "name", "identity", "person", "individual", "subject"]

/-- The `problematic_chars` list of `_contains_problematic_patterns`. -/
def problematic_chars : Str := "_#@$%^&*()[]\x7b\x7d|\\/<>?!~`+=".data

/-- Python `str.strip()`. -/
def pyStrip (s : Str) : Str :=
  ((s.dropWhile Char.isWhitespace).reverse.dropWhile Char.isWhitespace).reverse

/-- Python `str.isupper()`: at least one cased character and no cased
character lowercase (cased modelled as alphabetic). -/
def pyIsUpper (s : Str) : Bool :=
  let cased := s.filter Char.isAlpha
  !cased.isEmpty && cased.all fun c => !c.isLower

/-- Python `str.islower()`. -/
def pyIsLower (s : Str) : Bool :=
  let cased := s.filter Char.isAlpha
  !cased.isEmpty && cased.all fun c => !c.isUpper

/-- The characters `"'-."` tested at the edges of a candidate. -/
def edgeChars : Str := [Char.ofNat 39, '-', '.']

/-- `_contains_problematic_patterns`. -/
def contains_problematic_patterns (text : Str) : Bool :=
  if text = [] then false
  else
    let tl := lowerStr text
    if generic_words.any (fun w => tl = w.data) then true
    else if containsSub "  ".data text || text ≠ pyStrip text then true
    else if (match text with | [] => false | c :: _ => c ∈ edgeChars) ||
        (match text.getLast? with | none => false | some c => c ∈ edgeChars) then true
    else if text.length > 2 && (pyIsUpper text || pyIsLower text) then true
    else problematic_chars.any fun c => c ∈ text

/-- Python `str.isspace()`. -/
def pyIsSpace (s : Str) : Bool := !s.isEmpty && s.all Char.isWhitespace

/-- `_validate_variation_quality`: the acceptance predicate for a
candidate against the original name. -/
def validate_variation_quality (variation original_name : Str) : Bool :=
  if variation = [] || pyIsSpace variation then false
  else if lowerStr variation = lowerStr original_name then false
  else if max variation.length original_name.length
      - min variation.length original_name.length > 3 then false
  else if looks_like_address variation then false
  else if looks_like_dob variation then false
  else if contains_problematic_patterns variation then false
  else if max (splitWs variation).length (splitWs original_name).length
      - min (splitWs variation).length (splitWs original_name).length > 1 then false
  else true

/-- `_calculate_character_similarity`: Jaccard similarity of the lowered
character sets. -/
def calculate_character_similarity (var1 var2 : Str) : ℚ :=
  if var1 = [] || var2 = [] then 0
  else
    let set1 := (lowerStr var1).toFinset
    let set2 := (lowerStr var2).toFinset
    let inter := (set1 ∩ set2).card
    let union := (set1 ∪ set2).card
    if union > 0 then (inter : ℚ) / union else 0

/-- The curated nickname substitution table of `_are_near_duplicates`. -/
def nickname_substitutions : List (String × String) :=
  [("john", "jon"), ("michael", "mike"), ("william", "will"),
   ("robert", "rob"), ("james", "jim"), ("richard", "rick"),
   ("smith", "smyth"), ("johnson", "jonson"), ("brown", "browne")]

/-- `_are_near_duplicates`. -/
def are_near_duplicates (name1 name2 : Str) : Bool :=
  let lengthOneApart :=
    max name1.length name2.length - min name1.length name2.length = 1
  let longer := if name1.length > name2.length then name1 else name2
  let shorter := if name1.length > name2.length then name2 else name1
  if lengthOneApart && containsSub shorter longer then true
  else
    nickname_substitutions.any fun (sub1, sub2) =>
      (containsSub sub1.data name1 && containsSub sub2.data name2) ||
        (containsSub sub2.data name1 && containsSub sub1.data name2)

/-- `_is_too_similar_to_existing`: scan the accepted set, skipping
case-insensitively equal entries, rejecting on high Jaccard similarity
or a near-duplicate pattern. -/
def is_too_similar_to_existing (candidate : Str) (existing_variations : List Str) :
    Bool :=
  existing_variations.any fun existing =>
    if lowerStr candidate = lowerStr existing then false
    else if calculate_character_similarity (lowerStr candidate) (lowerStr existing)
        > 9 / 10 then true
    else are_near_duplicates (lowerStr candidate) (lowerStr existing)

/-- The confusable-character table of `generate_orthographic_variations`. -/
def similar_chars : List (Char × List Char) :=
  [('a', ['@', 'α', 'à', 'á', 'â', 'ã']),
   ('e', ['3', 'ε', 'è', 'é', 'ê', 'ë']),
   ('i', ['1', 'l', 'ì', 'í', 'î', 'ï']),
   ('o', ['0', 'ο', 'ò', 'ó', 'ô', 'õ']),
   ('s', ['$', '5', 'ş', 'š']),
   ('t', ['+', '7', 'ţ', 'ť']),
   ('l', ['1', 'I', 'ł']),
   ('g', ['9', 'q', 'ğ']),
   ('n', ['ñ', 'ň']),
   ('c', ['ç', 'č']),
   ('u', ['ù', 'ú', 'û', 'ü']),
   ('z', ['ž', 'ź', 'ż'])]

/-- The insertion alphabet of `generate_orthographic_variations`. -/
def insert_chars : List Char := ['a', 'e', 'i', 'o', 'u', 'h', 'r', 'n']

/-- `name[:idx] + replacement + name[idx+1:]`. -/
def setAt (s : Str) (i : Nat) (c : Char) : Str := s.take i ++ [c] ++ s.drop (i + 1)

/-- One iteration of the `generate_orthographic_variations` loop body:
substitution, insertion, deletion, transposition, each guarded on the
current count and the used set. -/
def orthoBody (r : RStream) (name : Str) (count : Nat)
    (st : List Str × List Str × Nat) : List Str × List Str × Nat :=
  let (vars, used, p) := st
  -- character substitution with similar-looking characters
  let (vars, used, p) :=
    if name.length > 1 then
      let (idx, p) := randint r p 0 (name.length - 1)
      let ch := (name.getD idx ' ').toLower
      match similar_chars.lookup ch with
      | some reps =>
        let (rep, p) := choiceL r p reps ' '
        let var := setAt name idx rep
        if lowerStr var ∉ used && var ≠ name then
          (vars ++ [var], used ++ [lowerStr var], p)
        else (vars, used, p)
      | none => (vars, used, p)
    else (vars, used, p)
  -- character insertion
  let (vars, used, p) :=
    if vars.length < count && name.length > 1 then
      let (idx, p) := randint r p 0 name.length
      let (c, p) := choiceL r p insert_chars ' '
      let var := insertAt name idx c
      if lowerStr var ∉ used && var ≠ name then
        (vars ++ [var], used ++ [lowerStr var], p)
      else (vars, used, p)
    else (vars, used, p)
  -- character deletion
  let (vars, used, p) :=
    if vars.length < count && name.length > 2 then
      let (idx, p) := randint r p 0 (name.length - 1)
      let var := removeAt name idx
      if var ≠ [] && lowerStr var ∉ used && var ≠ name then
        (vars ++ [var], used ++ [lowerStr var], p)
      else (vars, used, p)
    else (vars, used, p)
  -- character transposition
  if vars.length < count && name.length ≥ 2 then
    let (idx, p) := randint r p 0 (name.length - 2)
    let var := swapAdj name idx
    if lowerStr var ∉ used && var ≠ name then
      (vars ++ [var], used ++ [lowerStr var], p)
    else (vars, used, p)
  else (vars, used, p)

/-- The bounded `while` loop of `generate_orthographic_variations`:
structural recursion on the remaining attempt budget. -/
def orthoLoop (r : RStream) (name : Str) (count : Nat) :
    Nat → List Str × List Str × Nat → List Str × List Str × Nat
  | 0, st => st
  | attempts + 1, st =>
    if st.1.length < count then
      orthoLoop r name count attempts (orthoBody r name count st)
    else st

/-- `generate_orthographic_variations`: attempt budget `count * 5`,
result truncated to `count`. -/
def generate_orthographic_variations (r : RStream) (p : Nat) (name : Str)
    (count : Nat) : List Str × Nat :=
  let (vars, _, p) := orthoLoop r name count (count * 5) ([], [lowerStr name], p)
  (vars.take count, p)

end JH80.NonRule

namespace JH80.Rules

/-! ### `neurons/name/rule_based_variations.py`

Each rule transform of the dispatch table takes the optional
transliteration collaborator (`unidecode`, used only by
`_remove_accents_legacy`) and a random stream; warnings of the source
are log-only side effects and the `try/except` wrapper is vacuous here
because every transform is total. -/

/-- The type of a dispatch-table entry. -/
abbrev RuleFn := Option (Str → Str) → RStream → Str → Str

/-- Model of `random.sample(l, k)`: draw `k` distinct elements by
successive index choices without replacement. -/
def sampleL (r : RStream) (p : Nat) (l : List Nat) : Nat → List Nat × Nat
  | 0 => ([], p)
  | k + 1 =>
    if l = [] then ([], p)
    else
      let j := r p % l.length
      let x := l.getD j 0
      let (rest, pOut) := sampleL r (p + 1) (l.take j ++ l.drop (j + 1)) k
      (x :: rest, pOut)

/-- `apply_replace_spaces_with_special_chars`. -/
def apply_replace_spaces_with_special_chars : RuleFn := fun _ r name =>
  if !containsSub [' '] name then name
  else
    let (c, _) := choiceL r 0 ['_', '-', '.'] '_'
    replaceAll [' '] [c] name

/-- `apply_delete_random_letter`. -/
def apply_delete_random_letter : RuleFn := fun _ r name =>
  if name.length ≤ 1 then name
  else
    let (idx, _) := randint r 0 0 (name.length - 1)
    removeAt name idx

/-- `apply_replace_double_letters`: drop the second of the first
case-insensitive double letter. -/
def apply_replace_double_letters : RuleFn := fun _ _ name =>
  let nl := lowerStr name
  match (List.range (name.length - 1)).find? (fun i =>
      nl.getD i ' ' = nl.getD (i + 1) ' ' && (name.getD i ' ').isAlpha) with
  | some i => name.take (i + 1) ++ name.drop (i + 2)
  | none => name

/-- `apply_swap_adjacent_consonants`. -/
def apply_swap_adjacent_consonants : RuleFn := fun _ _ name =>
  let vowels : Str := "aeiou".data
  let nl := lowerStr name
  match (List.range (name.length - 1)).find? (fun i =>
      (nl.getD i ' ').isAlpha && nl.getD i ' ' ∉ vowels &&
        (nl.getD (i + 1) ' ').isAlpha && nl.getD (i + 1) ' ' ∉ vowels &&
        nl.getD i ' ' ≠ nl.getD (i + 1) ' ') with
  | some i => swapAdj name i
  | none => name

/-- `apply_swap_adjacent_syllables`. -/
def apply_swap_adjacent_syllables : RuleFn := fun _ _ name =>
  let parts := splitWs name
  if parts.length ≥ 2 then
    joinSep [' '] ([parts.getLastD []] ++ (parts.drop 1).dropLast ++ [parts.headD []])
  else
    match parts with
    | [word] =>
      let mid := word.length / 2
      if mid > 0 then word.drop mid ++ word.take mid else name
    | _ => name

/-- `apply_swap_random_letter`. -/
def apply_swap_random_letter : RuleFn := fun _ r name =>
  if name.length < 2 then name
  else
    let cands := (List.range (name.length - 1)).filter fun i =>
      (name.getD i ' ').isAlpha && (name.getD (i + 1) ' ').isAlpha &&
        (name.getD i ' ').toLower ≠ (name.getD (i + 1) ' ').toLower
    if cands ≠ [] then
      let (idx, _) := choiceL r 0 cands 0
      swapAdj name idx
    else name

/-- `apply_remove_random_vowel`. -/
def apply_remove_random_vowel : RuleFn := fun _ r name =>
  let vowelIdx := (List.range name.length).filter fun i =>
    name.getD i ' ' ∈ "aeiouAEIOU".data
  if vowelIdx ≠ [] then
    let (idx, _) := choiceL r 0 vowelIdx 0
    removeAt name idx
  else name

/-- `apply_remove_random_consonant`. -/
def apply_remove_random_consonant : RuleFn := fun _ r name =>
  let consIdx := (List.range name.length).filter fun i =>
    (name.getD i ' ').isAlpha && (name.getD i ' ').toLower ∉ "aeiou".data
  if consIdx ≠ [] then
    let (idx, _) := choiceL r 0 consIdx 0
    removeAt name idx
  else name

/-- `apply_remove_all_spaces`. -/
def apply_remove_all_spaces : RuleFn := fun _ _ name =>
  replaceAll [' '] [] name

/-- `apply_duplicate_random_letter`. -/
def apply_duplicate_random_letter : RuleFn := fun _ r name =>
  if name = [] then name
  else
    let letterIdx := (List.range name.length).filter fun i => (name.getD i ' ').isAlpha
    if letterIdx ≠ [] then
      let (idx, _) := choiceL r 0 letterIdx 0
      name.take (idx + 1) ++ [name.getD idx ' '] ++ name.drop (idx + 1)
    else name

/-- `apply_insert_random_letter`. -/
def apply_insert_random_letter : RuleFn := fun _ r name =>
  let alphabet := "abcdefghijklmnopqrstuvwxyz".data
  if name = [] then
    let (c, _) := choiceL r 0 alphabet 'a'
    [c]
  else
    let (idx, p) := randint r 0 0 name.length
    let (c, _) := choiceL r p alphabet 'a'
    let c := if idx > 0 && (name.getD (idx - 1) ' ').isUpper then c.toUpper else c
    insertAt name idx c

/-- `apply_add_title_prefix`. -/
def apply_add_title_prefix : RuleFn := fun _ r name =>
  let (pre, _) := choiceL r 0 ["Mr.", "Mrs.", "Ms.", "Dr."] "Mr."
  pre.data ++ [' '] ++ name

/-- `apply_add_title_suffix`. -/
def apply_add_title_suffix : RuleFn := fun _ r name =>
  let (suf, _) := choiceL r 0 ["Jr.", "Sr.", "III", "II"] "Jr."
  name ++ [' '] ++ suf.data

/-- `apply_abbreviate_name_parts`. -/
def apply_abbreviate_name_parts : RuleFn := fun _ _ name =>
  let parts := splitWs name
  if parts.length ≥ 2 then
    joinSep [' '] (((parts.headD []).take 1 ++ ['.']) :: parts.drop 1)
  else
    match parts with
    | [p0] => if p0.length > 1 then p0.take 1 ++ ['.'] else joinSep [' '] parts
    | _ => joinSep [' '] parts

/-- The vowel-for-vowel substitution table of `apply_replace_random_vowels`:
every vowel maps to the other four vowels of the same case. -/
def vowelAlternatives (c : Char) : List Char :=
  if c ∈ "aeiou".data then "aeiou".data.filter (· ≠ c)
  else if c ∈ "AEIOU".data then "AEIOU".data.filter (· ≠ c)
  else []

/-- `apply_replace_random_vowels`: replace one or two sampled vowels. -/
def apply_replace_random_vowels : RuleFn := fun _ r name =>
  let vowelIdx := (List.range name.length).filter fun i =>
    (name.getD i ' ').toLower ∈ "aeiou".data
  if vowelIdx ≠ [] then
    let (n, p) := randint r 0 1 2
    let num := min n vowelIdx.length
    let (idxs, p) := sampleL r p vowelIdx num
    (idxs.foldl (fun (st : Str × Nat) idx =>
      let (result, p) := st
      let c := name.getD idx ' '
      if vowelAlternatives c ≠ [] then
        let (rep, p) := choiceL r p (vowelAlternatives c) c
        (result.set idx rep, p)
      else (result, p)) (name, p)).1
  else name

/-- The consonant keys of the substitution table of
`apply_replace_random_consonants` (the table maps every key to all
other keys, case preserved). -/
def consKeys : Str := "bcdfghjklmnprstvwz".data

/-- `apply_replace_random_consonants`: replace one or two sampled
consonants with different consonants from the table. -/
def apply_replace_random_consonants : RuleFn := fun _ r name =>
  let consIdx := (List.range name.length).filter fun i =>
    (name.getD i ' ').isAlpha && (name.getD i ' ').toLower ∉ "aeiou".data
  if consIdx ≠ [] then
    let (n, p) := randint r 0 1 2
    let num := min n consIdx.length
    let (idxs, p) := sampleL r p consIdx num
    (idxs.foldl (fun (st : Str × Nat) idx =>
      let (result, p) := st
      let c := name.getD idx ' '
      if c ∈ consKeys then
        let (rep, p) := choiceL r p (consKeys.filter (· ≠ c)) c
        (result.set idx rep, p)
      else if c ∈ consKeys.map Char.toUpper then
        let (rep, p) := choiceL r p ((consKeys.filter (· ≠ c.toLower)).map Char.toUpper) c
        (result.set idx rep, p)
      else (result, p)) (name, p)).1
  else name

/-- `apply_reorder_name_parts`. -/
def apply_reorder_name_parts : RuleFn := fun _ r name =>
  let parts := splitWs name
  if parts.length ≥ 2 then
    let (strategy, _) := choiceL r 0 ["swap_first_last", "reverse_all"] "swap_first_last"
    if strategy = "swap_first_last" then
      joinSep [' '] ([parts.getLastD []] ++ (parts.drop 1).dropLast ++ [parts.headD []])
    else
      joinSep [' '] parts.reverse
  else
    match parts with
    | [p0] => p0.reverse
    | _ => name

/-- `apply_initial_only_first_name`. -/
def apply_initial_only_first_name : RuleFn := fun _ _ name =>
  let parts := splitWs name
  if parts.length ≥ 2 then
    joinSep [' '] (((parts.headD []).take 1 ++ ['.']) :: parts.drop 1)
  else
    match parts with
    | [p0] => if p0.length > 1 then p0.take 1 ++ ['.'] else name
    | _ => name

/-- `apply_shorten_to_initials`. -/
def apply_shorten_to_initials : RuleFn := fun _ _ name =>
  let parts := splitWs name
  if parts.length ≥ 2 then
    joinSep [' '] (parts.map fun p => p.take 1 ++ ['.'])
  else
    match parts with
    | [p0] => if p0.length > 1 then p0.take 1 ++ ['.'] else name
    | _ => name

/-- `_add_special_characters_legacy`: insert an apostrophe at a random
interior position. -/
def add_special_characters_legacy : RuleFn := fun _ r name =>
  if name.length > 1 then
    let (idx, _) := randint r 0 1 (name.length - 1)
    insertAt name idx (Char.ofNat 39)
  else name

/-- `_reverse_name_legacy`. -/
def reverse_name_legacy : RuleFn := fun _ _ name => name.reverse

/-- `_capitalize_random_letters_legacy`: each alphabetic character drawn
upper or lower (the random draw is consumed only on alphabetic
characters, as in the source). -/
def capitalize_random_letters_legacy : RuleFn := fun _ r name =>
  (name.foldl (fun (st : Str × Nat) c =>
    let (acc, p) := st
    if c.isAlpha then
      (acc ++ [if r p % 2 = 0 then c.toUpper else c.toLower], p + 1)
    else (acc ++ [c], p)) ([], 0)).1

/-- Python `str.title()`: uppercase an alphabetic character after a
non-alphabetic one, lowercase the rest. -/
def pyTitle (s : Str) : Str :=
  (s.foldl (fun (st : Str × Bool) c =>
    let (acc, prevAlpha) := st
    if c.isAlpha then
      (acc ++ [if prevAlpha then c.toLower else c.toUpper], true)
    else (acc ++ [c], false)) ([], false)).1

/-- `_change_case_pattern_legacy`. -/
def change_case_pattern_legacy : RuleFn := fun _ _ name =>
  if name.length > 1 then pyTitle name else name

/-- The accent table of `_add_accents_legacy`. -/
def accent_map : List (Char × Char) :=
  [('a', 'à'), ('e', 'é'), ('i', 'í'), ('o', 'ó'), ('u', 'ú'),
   ('A', 'À'), ('E', 'É'), ('I', 'Í'), ('O', 'Ó'), ('U', 'Ú')]

/-- `_add_accents_legacy`: accent the first mapped character. -/
def add_accents_legacy : RuleFn := fun _ _ name =>
  match (List.range name.length).find? (fun i =>
      (accent_map.lookup (name.getD i ' ')).isSome) with
  | some i =>
    name.set i ((accent_map.lookup (name.getD i ' ')).getD (name.getD i ' '))
  | none => name

/-- `_remove_accents_legacy`: delegates to `unidecode` when available. -/
def remove_accents_legacy : RuleFn := fun tr _ name =>
  match tr with
  | some f => f name
  | none => name

/-- `_add_hyphens_legacy`. -/
def add_hyphens_legacy : RuleFn := fun _ _ name =>
  let parts := splitWs name
  if parts.length ≥ 2 then joinSep ['-'] parts else name

/-- `_remove_hyphens_legacy`. -/
def remove_hyphens_legacy : RuleFn := fun _ _ name =>
  replaceAll ['-'] [' '] name

/-- The digraph table of `_phonetic_substitution_legacy`. -/
def phonetic_rules_legacy : List (String × String) :=
  [("ph", "f"), ("f", "ph"), ("c", "k"), ("k", "c"),
   ("s", "z"), ("z", "s"), ("i", "y"), ("y", "i")]

/-- `_phonetic_substitution_legacy`: the first digraph present in the
lowered name is replaced (case-sensitively) throughout. -/
def phonetic_substitution_legacy : RuleFn := fun _ _ name =>
  match phonetic_rules_legacy.find? (fun pr => containsSub pr.1.data (lowerStr name)) with
  | some (old, new) => replaceAll old.data new.data name
  | none => name

/-- `_double_consonants_legacy`. -/
def double_consonants_legacy : RuleFn := fun _ _ name =>
  match (List.range name.length).find? (fun i =>
      (name.getD i ' ').toLower ∈ "bcdfghjklmnpqrstvwxz".data) with
  | some i => name.take (i + 1) ++ [name.getD i ' '] ++ name.drop (i + 1)
  | none => name

/-- `_simplify_consonants_legacy`. -/
def simplify_consonants_legacy : RuleFn := fun _ _ name =>
  match (List.range (name.length - 1)).find? (fun i =>
      name.getD i ' ' = name.getD (i + 1) ' ' && (name.getD i ' ').isAlpha) with
  | some i => name.take i ++ name.drop (i + 1)
  | none => name

/-- The `rule_map` dispatch table of `apply_rule_to_name`, keys in
source order (synonyms included). -/
def rule_map : List (String × RuleFn) :=
  [("replace_spaces_with_special_characters", apply_replace_spaces_with_special_chars),
   ("replace_spaces_with_random_special_characters", apply_replace_spaces_with_special_chars),
   ("replace_double_letters", apply_replace_double_letters),
   ("replace_double_letters_with_single_letter", apply_replace_double_letters),
   ("replace_vowels", apply_replace_random_vowels),
   ("replace_random_vowels", apply_replace_random_vowels),
   ("replace_random_vowel_with_random_vowel", apply_replace_random_vowels),
   ("replace_random_consonants", apply_replace_random_consonants),
   ("replace_random_consonant_with_random_consonant", apply_replace_random_consonants),
   ("swap_adjacent_consonants", apply_swap_adjacent_consonants),
   ("swap_adjacent_syllables", apply_swap_adjacent_syllables),
   ("swap_random_letter", apply_swap_random_letter),
   ("delete_letter", apply_delete_random_letter),
   ("delete_random_letter", apply_delete_random_letter),
   ("remove_random_vowel", apply_remove_random_vowel),
   ("remove_random_consonant", apply_remove_random_consonant),
   ("remove_all_spaces", apply_remove_all_spaces),
   ("duplicate_letters", apply_duplicate_random_letter),
   ("duplicate_random_letter", apply_duplicate_random_letter),
   ("duplicate_random_letter_as_double_letter", apply_duplicate_random_letter),
   ("insert_random_letter", apply_insert_random_letter),
   ("add_title_prefix", apply_add_title_prefix),
   ("add_random_leading_title", apply_add_title_prefix),
   ("add_title_suffix", apply_add_title_suffix),
   ("add_random_trailing_title", apply_add_title_suffix),
   ("add_special_characters", add_special_characters_legacy),
   ("initial_only_first_name", apply_initial_only_first_name),
   ("shorten_to_initials", apply_shorten_to_initials),
   ("shorten_name_to_initials", apply_shorten_to_initials),
   ("abbreviate_name_parts", apply_abbreviate_name_parts),
   ("shorten_name_to_abbreviations", apply_abbreviate_name_parts),
   ("reorder_name_parts", apply_reorder_name_parts),
   ("name_parts_permutations", apply_reorder_name_parts),
   ("reverse_name", reverse_name_legacy),
   ("capitalize_random_letters", capitalize_random_letters_legacy),
   ("change_case_pattern", change_case_pattern_legacy),
   ("add_accents", add_accents_legacy),
   ("remove_accents", remove_accents_legacy),
   ("add_hyphens", add_hyphens_legacy),
   ("remove_hyphens", remove_hyphens_legacy),
   ("phonetic_substitution", phonetic_substitution_legacy),
   ("double_consonants", double_consonants_legacy),
   ("simplify_consonants", simplify_consonants_legacy)]

/-- Is the rule identifier in the dispatch table? -/
def isKnownRule (rule : String) : Bool := (rule_map.lookup rule).isSome

/-- `apply_rule_to_name`: dispatch on the rule identifier; a missing
entry logs a warning and returns the name unchanged; an empty transform
result falls back to the name (`return result if result else name`). -/
def apply_rule_to_name (tr : Option (Str → Str)) (r : RStream) (name : Str)
    (rule : String) : Str :=
  match rule_map.lookup rule with
  | some f =>
    let result := f tr r name
    if result = [] then name else result
  | none => name

end JH80.Rules

namespace JH80.Name

open JH80.ParseQuery (Requirements)

/-! ### `neurons/name/name.py`

The orchestration pipeline.  `parsed_query` is the `Requirements`
object produced by the parser (the pipeline reads `variation_count`,
`rules` and `rule_percentage`).  The optional transliteration
collaborator (`unidecode`) is passed as a parameter `tr`; the unbounded
`while` loops of `_apply_script_transformations` and
`_ensure_variation_count` take a fuel parameter. -/

/-- Code-point range membership. -/
def inRanges (c : Char) (rs : List (Nat × Nat)) : Bool :=
  rs.any fun (a, b) => a ≤ c.toNat && c.toNat ≤ b

/-- `_detect_script_type`: Arabic, then Cyrillic, then CJK, else Latin. -/
def detect_script_type (name : Str) : String :=
  if name.any (fun c => inRanges c
      [(0x600, 0x6FF), (0x750, 0x77F), (0x8A0, 0x8FF), (0xFB50, 0xFDFF),
       (0xFE70, 0xFEFF)]) then "arabic"
  else if name.any (fun c => inRanges c
      [(0x400, 0x4FF), (0x500, 0x52F), (0x2DE0, 0x2DFF), (0xA640, 0xA69F)]) then
    "cyrillic"
  else if name.any (fun c => inRanges c
      [(0x4E00, 0x9FFF), (0x3400, 0x4DBF), (0x3040, 0x309F), (0x30A0, 0x30FF),
       (0xAC00, 0xD7AF)]) then "cjk"
  else "latin"

/-- Append candidates that are new under case-insensitive comparison
(`for var in ...: if var.lower() not in used: append`). -/
def addUnique : List Str × List Str → List Str → List Str × List Str
  | vu, [] => vu
  | (vars, used), v :: rest =>
    if lowerStr v ∉ used then
      addUnique (vars ++ [v], used ++ [lowerStr v]) rest
    else addUnique (vars, used) rest

/-- As `addUnique` but also bounded by a cap on the result length
(`if var.lower() not in used and len(variations) < cap`). -/
def addUniqueCap (cap : Nat) : List Str × List Str → List Str → List Str × List Str
  | vu, [] => vu
  | (vars, used), v :: rest =>
    if lowerStr v ∉ used ∧ vars.length < cap then
      addUniqueCap cap (vars ++ [v], used ++ [lowerStr v]) rest
    else addUniqueCap cap (vars, used) rest

/-- The vowel-replacement table of the `replace_vowels` branch of
`_apply_single_rule`. -/
def vowel_replacements : List (Char × Char) :=
  [('a', '@'), ('e', '3'), ('i', '1'), ('o', '0'), ('u', 'v')]

/-- One pass of the `replace_vowels` inner loop: the first vowel of
`"aeiouAEIOU"` present in the name is replaced throughout. -/
def replaceVowelsOnce (name : Str) : Str :=
  match "aeiouAEIOU".data.find? (fun v =>
      (vowel_replacements.lookup v.toLower).isSome && v ∈ name) with
  | some v => replaceAll [v] [(vowel_replacements.lookup v.toLower).getD v] name
  | none => name

/-- The `replace_spaces_with_special_characters` loop of
`_apply_single_rule` (append, then break once `count` is reached). -/
def replSpacesGo (name : Str) (count : Nat) : List Char → List Str → List Str
  | [], acc => acc
  | c :: rest, acc =>
    let acc := acc ++ [replaceAll [' '] [c] name]
    if acc.length ≥ count then acc else replSpacesGo name count rest acc

/-- `_apply_single_rule` (the six-armed dispatch local to `name.py`);
unknown rules contribute nothing.  Returns the variations (truncated to
`count`) and the advanced stream position. -/
def apply_single_rule (r : RStream) (p : Nat) (name : Str) (rule : String)
    (count : Nat) : List Str × Nat :=
  let (vars, p) :=
    if rule = "replace_spaces_with_special_characters" then
      (if containsSub [' '] name then replSpacesGo name count ['_', '-', '.'] []
       else [], p)
    else if rule = "replace_vowels" then
      let var := replaceVowelsOnce name
      ((List.range count).foldl
        (fun acc _ => if var ≠ name then acc ++ [var] else acc) [], p)
    else if rule = "delete_letter" then
      (List.range count).foldl (fun (st : List Str × Nat) _ =>
        let (acc, p) := st
        if name.length > 2 then
          let (idx, p) := randint r p 0 (name.length - 1)
          (acc ++ [removeAt name idx], p)
        else (acc, p)) ([], p)
    else if rule = "swap_random_letter" then
      (List.range count).foldl (fun (st : List Str × Nat) _ =>
        let (acc, p) := st
        if name.length ≥ 2 then
          let (idx, p) := randint r p 0 (name.length - 2)
          (acc ++ [swapAdj name idx], p)
        else (acc, p)) ([], p)
    else if rule = "shorten_name_to_initials" then
      (let parts := splitWs name
       if parts.length ≥ 2 then
         [joinSep ['.'] (parts.map fun pt => [(pt.headD ' ').toUpper])]
       else [], p)
    else if rule = "reorder_name_parts" then
      (let parts := splitWs name
       if parts.length ≥ 2 then
         [joinSep [' '] parts.reverse] ++
           (if parts.length > 2 then
             [parts.getLastD [] ++ [' '] ++ joinSep [' '] parts.dropLast]
            else [])
       else [], p)
    else ([], p)
  (vars.take count, p)

/-- `_apply_rule_transformations`: distribute the count across the rules
and filter each rule's output through the used set with the count cap. -/
def apply_rule_transformations (r : RStream) (p : Nat) (name : Str)
    (rules : List String) (count : Nat) : List Str × Nat :=
  let variations_per_rule := if rules = [] then 0 else max 1 (count / rules.length)
  let (vu, p) := rules.foldl
    (fun (acc : (List Str × List Str) × Nat) rule =>
      let ((vars, used), p) := acc
      let (rule_vars, p) := apply_single_rule r p name rule variations_per_rule
      (addUniqueCap count (vars, used) rule_vars, p))
    (([], [lowerStr name]), p)
  (vu.1, p)

/-- The digraph table of `_generate_phonetic_variations`. -/
def phonetic_rules : List (String × String) :=
  [("ph", "f"), ("f", "ph"), ("c", "k"), ("k", "c"), ("s", "z"), ("z", "s"),
   ("i", "y"), ("y", "i"), ("ck", "k"), ("k", "ck")]

/-- The digraph pass of the phonetic loop body (break at `count`). -/
def phonRulesGo (name : Str) (count : Nat) :
    List (String × String) → List Str × List Str → List Str × List Str
  | [], st => st
  | (old, new) :: rest, (vars, used) =>
    if containsSub old.data (lowerStr name) then
      let var := replaceAll old.data new.data name
      if lowerStr var ∉ used then
        let vars := vars ++ [var]
        let used := used ++ [lowerStr var]
        if vars.length ≥ count then (vars, used)
        else phonRulesGo name count rest (vars, used)
      else phonRulesGo name count rest (vars, used)
    else phonRulesGo name count rest (vars, used)

/-- The double-letter pass of the phonetic loop body: first double whose
removal is fresh is appended, then break. -/
def phonDouble (name : Str) :
    List Nat → List Str × List Str → List Str × List Str
  | [], st => st
  | i :: rest, (vars, used) =>
    if name.getD i ' ' = name.getD (i + 1) ' ' then
      let var := removeAt name i
      if lowerStr var ∉ used then (vars ++ [var], used ++ [lowerStr var])
      else phonDouble name rest (vars, used)
    else phonDouble name rest (vars, used)

/-- One iteration of the `_generate_phonetic_variations` loop. -/
def phonBody (name : Str) (count : Nat) (st : List Str × List Str) :
    List Str × List Str :=
  let st := phonRulesGo name count phonetic_rules st
  if st.1.length < count then phonDouble name (List.range (name.length - 1)) st
  else st

/-- The bounded phonetic loop (attempt budget `count * 3`). -/
def phonLoop (name : Str) (count : Nat) :
    Nat → List Str × List Str → List Str × List Str
  | 0, st => st
  | attempts + 1, st =>
    if st.1.length < count then phonLoop name count attempts (phonBody name count st)
    else st

/-- `_generate_phonetic_variations`. -/
def generate_phonetic_variations (name : Str) (count : Nat) : List Str :=
  (phonLoop name count (count * 3) ([], [lowerStr name])).1.take count

/-- The confusable-character table local to
`_generate_orthographic_variations` in `name.py`. -/
def similar_chars : List (Char × List Char) :=
  [('a', ['@', 'α']), ('e', ['3', 'ε']), ('i', ['1', 'l']), ('o', ['0', 'ο']),
   ('s', ['$', '5']), ('t', ['+', '7']), ('l', ['1', 'I']), ('g', ['9', 'q'])]

/-- One iteration of the `_generate_orthographic_variations` loop body:
substitution, insertion, deletion. -/
def orthoBody (r : RStream) (name : Str) (count : Nat)
    (st : List Str × List Str × Nat) : List Str × List Str × Nat :=
  let (vars, used, p) := st
  -- character substitution
  let (vars, used, p) :=
    if name.length > 1 then
      let (idx, p) := randint r p 0 (name.length - 1)
      let ch := (name.getD idx ' ').toLower
      match similar_chars.lookup ch with
      | some reps =>
        let (rep, p) := choiceL r p reps ' '
        let var := JH80.NonRule.setAt name idx rep
        if lowerStr var ∉ used then (vars ++ [var], used ++ [lowerStr var], p)
        else (vars, used, p)
      | none => (vars, used, p)
    else (vars, used, p)
  -- character insertion
  let (vars, used, p) :=
    if vars.length < count && name.length > 1 then
      let (idx, p) := randint r p 0 name.length
      let (c, p) := choiceL r p "aeiou".data 'a'
      let var := insertAt name idx c
      if lowerStr var ∉ used then (vars ++ [var], used ++ [lowerStr var], p)
      else (vars, used, p)
    else (vars, used, p)
  -- character deletion
  if vars.length < count && name.length > 2 then
    let (idx, p) := randint r p 0 (name.length - 1)
    let var := removeAt name idx
    if lowerStr var ∉ used then (vars ++ [var], used ++ [lowerStr var], p)
    else (vars, used, p)
  else (vars, used, p)

/-- The bounded orthographic loop (attempt budget `count * 5`). -/
def orthoLoop (r : RStream) (name : Str) (count : Nat) :
    Nat → List Str × List Str × Nat → List Str × List Str × Nat
  | 0, st => st
  | attempts + 1, st =>
    if st.1.length < count then orthoLoop r name count attempts (orthoBody r name count st)
    else st

/-- `_generate_orthographic_variations` (the `name.py` variant). -/
def generate_orthographic_variations (r : RStream) (p : Nat) (name : Str)
    (count : Nat) : List Str × Nat :=
  let (vars, _, p) := orthoLoop r name count (count * 5) ([], [lowerStr name], p)
  (vars.take count, p)

/-- The rule-based share computed inside `_generate_latin_variations`:
`rule_count = int(variation_count * rule_percentage)` (truncation,
not `math.ceil`). -/
def ruleCountLatin (variation_count : Nat) (rule_percentage : ℚ) : Nat :=
  (pyTrunc ((variation_count : ℚ) * rule_percentage)).toNat

/-- Strategy 1 of `_generate_latin_variations`: rule-based
transformations, filtered into the result without a cap. -/
def latinStageRules (r : RStream) (name : Str) (q : Requirements)
    (st : List Str × List Str × Nat) : List Str × List Str × Nat :=
  let rule_count := ruleCountLatin q.variation_count q.rule_percentage
  if q.rules ≠ [] ∧ rule_count > 0 then
    let rv := apply_rule_transformations r st.2.2 name q.rules rule_count
    let vu := addUnique (st.1, st.2.1) rv.1
    (vu.1, vu.2, rv.2)
  else st

/-- Strategy 2 of `_generate_latin_variations`: phonetic variations for
half the remainder, capped at the target. -/
def latinStagePhonetic (name : Str) (q : Requirements)
    (st : List Str × List Str × Nat) : List Str × List Str × Nat :=
  let remaining := q.variation_count - st.1.length
  if remaining > 0 then
    let phonetic_vars := generate_phonetic_variations name (remaining / 2)
    let vu := addUniqueCap q.variation_count (st.1, st.2.1) phonetic_vars
    (vu.1, vu.2, st.2.2)
  else st

/-- Strategy 3 of `_generate_latin_variations`: orthographic variations
for the remainder, capped at the target. -/
def latinStageOrtho (r : RStream) (name : Str) (q : Requirements)
    (st : List Str × List Str × Nat) : List Str × List Str × Nat :=
  let remaining := q.variation_count - st.1.length
  if remaining > 0 then
    let ov := generate_orthographic_variations r st.2.2 name remaining
    let vu := addUniqueCap q.variation_count (st.1, st.2.1) ov.1
    (vu.1, vu.2, ov.2)
  else st

/-- `_generate_latin_variations`. -/
def generate_latin_variations (r : RStream) (p : Nat) (name : Str)
    (q : Requirements) : List Str × Nat :=
  let st := latinStageOrtho r name q
    (latinStagePhonetic name q
      (latinStageRules r name q ([], [lowerStr name], p)))
  (st.1, st.2.2)

/-- The deterministic part of `_apply_script_transformations`
(Arabic/Cyrillic part reorderings). -/
def scriptDeterministic (name : Str) (script_type : String)
    (st : List Str × List Str) : List Str × List Str :=
  let parts := splitWs name
  if script_type = "arabic" ∨ script_type = "cyrillic" then
    let st :=
      if parts.length ≥ 2 then
        let swapped := joinSep [' '] ([parts.getLastD []] ++ parts.dropLast)
        if lowerStr swapped ∉ st.2 then (st.1 ++ [swapped], st.2 ++ [lowerStr swapped])
        else st
      else st
    let st :=
      if parts.length ≥ 2 then
        let merged := parts.foldl (fun a b => a ++ b) []
        if lowerStr merged ∉ st.2 then (st.1 ++ [merged], st.2 ++ [lowerStr merged])
        else st
      else st
    if parts.length ≥ 2 then
      let rev := joinSep [' '] parts.reverse
      if lowerStr rev ∉ st.2 then (st.1 ++ [rev], st.2 ++ [lowerStr rev])
      else st
    else st
  else st

/-- One iteration of the unbounded fill loop of
`_apply_script_transformations` (removal, early break, duplication). -/
def scriptBody (r : RStream) (name : Str) (count : Nat)
    (st : List Str × List Str × Nat) : List Str × List Str × Nat :=
  let (vars, used, p) := st
  let (vars, used, p) :=
    if name.length > 2 then
      let (idx, p) := randint r p 0 (name.length - 1)
      let var := removeAt name idx
      if var ≠ [] ∧ lowerStr var ∉ used then
        (vars ++ [var], used ++ [lowerStr var], p)
      else (vars, used, p)
    else (vars, used, p)
  if vars.length ≥ count then (vars, used, p)
  else if name.length > 1 then
    let (idx, p) := randint r p 0 (name.length - 1)
    let var := name.take (idx + 1) ++ [name.getD idx ' '] ++ name.drop (idx + 1)
    if lowerStr var ∉ used then (vars ++ [var], used ++ [lowerStr var], p)
    else (vars, used, p)
  else (vars, used, p)

/-- The unbounded fill loop, fueled (`none` models non-termination of
the source loop). -/
def scriptLoop (r : RStream) (name : Str) (count : Nat) :
    Nat → List Str × List Str × Nat → Option (List Str × List Str × Nat)
  | 0, st => if st.1.length < count then none else some st
  | fuel + 1, st =>
    if st.1.length < count then
      scriptLoop r name count fuel (scriptBody r name count st)
    else some st

/-- `_apply_script_transformations`. -/
def apply_script_transformations (r : RStream) (p : Nat) (name : Str)
    (script_type : String) (count : Nat) (fuel : Nat) : Option (List Str × Nat) :=
  let st := scriptDeterministic name script_type ([], [lowerStr name])
  match scriptLoop r name count fuel (st.1, st.2, p) with
  | some (vars, _, p) => some (vars.take count, p)
  | none => none

/-- `_generate_non_latin_variations`: script-specific transformations,
then transliteration into the Latin pipeline when available. -/
def generate_non_latin_variations (tr : Option (Str → Str)) (r : RStream)
    (p : Nat) (name : Str) (script_type : String) (q : Requirements)
    (fuel : Nat) : Option (List Str × Nat) :=
  match apply_script_transformations r p name script_type (q.variation_count / 2) fuel with
  | none => none
  | some sv =>
    let vu := addUnique ([], [lowerStr name]) sv.1
    match tr with
    | some f =>
      if vu.1.length < q.variation_count then
        let t := f name
        if t ≠ [] ∧ t ≠ name then
          let lv := generate_latin_variations r sv.2 t
            {q with variation_count := q.variation_count - vu.1.length}
          let vu2 := addUniqueCap q.variation_count (vu.1, vu.2) lv.1
          some (vu2.1, lv.2)
        else some (vu.1, sv.2)
      else some (vu.1, sv.2)
    | none => some (vu.1, sv.2)

/-- The insertion step of the `_ensure_variation_count` loop body. -/
def ensureInsert (r : RStream) (base : Str)
    (st : List Str × List Str × Nat) : List Str × List Str × Nat :=
  let i := randint r st.2.2 0 base.length
  let c := choiceL r i.2 "aeiou".data 'a'
  let var := insertAt base i.1 c.1
  if lowerStr var ∉ st.2.1 then (st.1 ++ [var], st.2.1 ++ [lowerStr var], c.2)
  else (st.1, st.2.1, c.2)

/-- One iteration of the `_ensure_variation_count` loop body: pick a
base string, try a character removal (with `continue` on success), else
fall through to a vowel insertion. -/
def ensureBody (r : RStream) (original_name : Str)
    (st : List Str × List Str × Nat) : List Str × List Str × Nat :=
  let b := choiceL r st.2.2 (original_name :: st.1.take 3) original_name
  if b.1.length > 2 then
    let i := randint r b.2 0 (b.1.length - 1)
    let var := removeAt b.1 i.1
    if var ≠ [] ∧ lowerStr var ∉ st.2.1 then
      (st.1 ++ [var], st.2.1 ++ [lowerStr var], i.2)
    else ensureInsert r b.1 (st.1, st.2.1, i.2)
  else ensureInsert r b.1 (st.1, st.2.1, b.2)

/-- The unbounded top-up loop of `_ensure_variation_count`, fueled. -/
def ensureLoop (r : RStream) (original_name : Str) (target_count : Nat) :
    Nat → List Str × List Str × Nat → Option (List Str)
  | 0, st => if st.1.length ≥ target_count then some (st.1.take target_count) else none
  | fuel + 1, st =>
    if st.1.length < target_count then
      ensureLoop r original_name target_count fuel (ensureBody r original_name st)
    else some (st.1.take target_count)

/-- `_ensure_variation_count`: truncate when long enough, otherwise top
up with simple character modifications. -/
def ensure_variation_count (r : RStream) (p : Nat) (variations : List Str)
    (original_name : Str) (target_count fuel : Nat) : Option (List Str) :=
  if variations.length ≥ target_count then some (variations.take target_count)
  else
    ensureLoop r original_name target_count fuel
      (variations, variations.map lowerStr ++ [lowerStr original_name], p)

/-- `generate_name_variations`: the entry point of the name pipeline. -/
def generate_name_variations (tr : Option (Str → Str)) (r : RStream)
    (name : Str) (parsed_query : Requirements) (fuel : Nat) : Option (List Str) :=
  let script_type := detect_script_type name
  if script_type = "latin" then
    let lv := generate_latin_variations r 0 name parsed_query
    ensure_variation_count r lv.2 lv.1 name parsed_query.variation_count fuel
  else
    match generate_non_latin_variations tr r 0 name script_type parsed_query fuel with
    | none => none
    | some vp =>
      ensure_variation_count r vp.2 vp.1 name parsed_query.variation_count fuel

end JH80.Name

namespace JH80.Spec

/-! ### Claim-side definitions

These definitions follow the words of the specification claims (not the
source); they exist to be compared against the source-derived
definitions above. -/

/-- The rejection condition as listed by claim C4: candidate equals the
seed case-insensitively; length differs by more than 3; address-like or
date-like; contains a character of the punctuation blacklist; word
count differs by more than one. -/
def claimC4Rejects (candidate seed : Str) : Bool :=
  (lowerStr candidate = lowerStr seed) ||
  (max candidate.length seed.length - min candidate.length seed.length > 3) ||
  JH80.NonRule.looks_like_address candidate ||
  JH80.NonRule.looks_like_dob candidate ||
  JH80.NonRule.problematic_chars.any (fun c => c ∈ candidate) ||
  (max (splitWs candidate).length (splitWs seed).length
    - min (splitWs candidate).length (splitWs seed).length > 1)

/-- Claim C5's "one string is the other with a single trailing or
leading character removed". -/
def trimOneChar (a b : Str) : Bool :=
  (a.length = b.length + 1 && (b = a.drop 1 || b = a.dropLast)) ||
  (b.length = a.length + 1 && (a = b.drop 1 || a = b.dropLast))

/-- Claim C5's "both strings match opposite sides of the curated
common-nickname substitution table". -/
def nicknameMatch (a b : Str) : Bool :=
  JH80.NonRule.nickname_substitutions.any fun (s1, s2) =>
    (containsSub s1.data a && containsSub s2.data b) ||
    (containsSub s2.data a && containsSub s1.data b)

/-- The near-duplicate rejection condition exactly as claim C5 states
it: some accepted string has Jaccard similarity above 0.9 with the
candidate, or is a one-character edge trim of it, or matches the
nickname table against it (the code compares lowered strings). -/
def claimC5NearDup (candidate : Str) (accepted : List Str) : Bool :=
  accepted.any fun e =>
    (JH80.NonRule.calculate_character_similarity (lowerStr candidate) (lowerStr e)
      > 9 / 10) ||
    trimOneChar (lowerStr candidate) (lowerStr e) ||
    nicknameMatch (lowerStr candidate) (lowerStr e)

end JH80.Spec

namespace JH80

open JH80.ParseQuery (Requirements SimDist)

/-- The sample instruction text of claim C3 (also the `__main__` test
query of `parse_query.py`). -/
def sample_query : Str :=
  ("Generate exactly 11 variations of {name}. Ensure the generated variations " ++
   "reflect phonetic similarity (30% Light, 40% Medium, 30% Far) and " ++
   "orthographic similarity (50% Light, 50% Medium). Approximately 51% of all " ++
   "generated variations should follow these rule-based transformations: " ++
   "Reorder name parts.").data

/-- Concrete requirement for the C1 witness run. -/
def reqAnn : Requirements :=
  { variation_count := 3, rule_percentage := 0, rules := [],
    phonetic_similarity := SimDist.empty,
    orthographic_similarity := SimDist.empty, uav_seed_name := none }

/-- Concrete requirement for the C7 / C9 witness runs. -/
def reqBob : Requirements :=
  { variation_count := 5, rule_percentage := 0, rules := [],
    phonetic_similarity := SimDist.empty,
    orthographic_similarity := SimDist.empty, uav_seed_name := none }

/-- A concrete random stream. -/
def rBob : RStream := fun n => n * 13 + 5

/-- A pointwise-equal but syntactically different stream. -/
def rBob2 : RStream := fun n => 13 * n + 5

/-- Concrete distribution for the C10 witness. -/
def distC10 : SimDist := ⟨some (3 / 10), some (4 / 10), some (3 / 10)⟩

end JH80

namespace JH80

open JH80.ParseQuery JH80.Name JH80.NonRule JH80.Rules JH80.Spec

/-! ## Theorems -/

/-- Ceiling evaluation used by the C2 results. -/
lemma ceil_561_div_100 : ⌈(561 / 100 : ℚ)⌉ = 6 := by
  rw [Int.ceil_eq_iff] <;> norm_num

/-- C2 (counterexample): the claim "the number of rule-based variations
requested equals ceil(target_count × rule_fraction)" fails on the
generation pipeline: at target 11 and fraction 0.51,
`_generate_latin_variations` computes a rule share of 5, not
`ceil(11 × 0.51) = 6`. -/
theorem C2_counterexample :
    JH80.Name.ruleCountLatin 11 (51 / 100) = 5 ∧
      ((JH80.Name.ruleCountLatin 11 (51 / 100) : ℤ) ≠ ⌈((11 : ℚ) * (51 / 100))⌉) := by
  constructor <;> norm_num [JH80.Name.ruleCountLatin, JH80.pyTrunc, ceil_561_div_100] <;>
    decide

/-- C2 (amended): the helper `calculate_rule_count` rounds up
(`ceil(target_count × rule_fraction)`, giving 6 at 11 × 0.51), but the
rule share actually requested inside `_generate_latin_variations` is
computed by truncation (`int(variation_count * rule_percentage)`,
giving 5 there). -/
theorem C2_rule_count_policies (n : Nat) (p : ℚ) (hp : 0 ≤ p) :
    (JH80.Name.ruleCountLatin n p : ℤ) = ⌊(n : ℚ) * p⌋ ∧
    JH80.ParseQuery.calculate_rule_count n p = ⌈(n : ℚ) * p⌉ ∧
    JH80.Name.ruleCountLatin 11 (51 / 100) = 5 ∧
    JH80.ParseQuery.calculate_rule_count 11 (51 / 100) = 6 := by
  have hx : (0 : ℚ) ≤ (n : ℚ) * p := mul_nonneg (Nat.cast_nonneg n) hp
  refine ⟨?_, rfl, ?_, ?_⟩
  · unfold JH80.Name.ruleCountLatin JH80.pyTrunc
    rw [if_pos hx]
    exact Int.toNat_of_nonneg (Int.floor_nonneg.mpr hx)
  · norm_num [JH80.Name.ruleCountLatin, JH80.pyTrunc]
    decide
  · norm_num [JH80.ParseQuery.calculate_rule_count, ceil_561_div_100]

/-- Witness for C2_rule_count_policies at a concrete nonnegative
fraction. -/
theorem C2_rule_count_policies_witness :
    (JH80.Name.ruleCountLatin 11 (51 / 100) : ℤ) = ⌊(11 : ℚ) * (51 / 100)⌋ ∧
    JH80.ParseQuery.calculate_rule_count 11 (51 / 100) = ⌈(11 : ℚ) * (51 / 100)⌉ ∧
    JH80.Name.ruleCountLatin 11 (51 / 100) = 5 ∧
    JH80.ParseQuery.calculate_rule_count 11 (51 / 100) = 6 :=
  C2_rule_count_policies 11 (51 / 100) (by norm_num)

/-- C6: `apply_rule_to_name` is total: an unknown rule identifier (one
absent from the dispatch table) returns the input unchanged (the source
only logs a warning); the delete-letter rule on a string of length at
most 1 returns the input unchanged; the space-replacement rule on a
string without spaces returns the input unchanged. -/
theorem C6_rule_application_total :
    (∀ (rule : String), JH80.Rules.isKnownRule rule = false →
      ∀ (tr : Option (Str → Str)) (r : RStream) (name : Str),
        JH80.Rules.apply_rule_to_name tr r name rule = name) ∧
    (∀ (tr : Option (Str → Str)) (r : RStream) (name : Str), name.length ≤ 1 →
      JH80.Rules.apply_rule_to_name tr r name "delete_random_letter" = name) ∧
    (∀ (tr : Option (Str → Str)) (r : RStream) (name : Str),
      containsSub [' '] name = false →
        JH80.Rules.apply_rule_to_name tr r name "replace_spaces_with_special_characters"
          = name) := by
  refine ⟨?_, ?_, ?_⟩
  · intro rule h tr r name
    unfold JH80.Rules.apply_rule_to_name
    cases hl : JH80.Rules.rule_map.lookup rule with
    | none => rfl
    | some f => rw [JH80.Rules.isKnownRule, hl] at h; simp at h
  · intro tr r name h
    have hl : JH80.Rules.rule_map.lookup "delete_random_letter"
        = some JH80.Rules.apply_delete_random_letter := by rfl
    unfold JH80.Rules.apply_rule_to_name
    rw [hl]
    simp only [JH80.Rules.apply_delete_random_letter, if_pos h]
    split <;> rfl
  · intro tr r name h
    have hl : JH80.Rules.rule_map.lookup "replace_spaces_with_special_characters"
        = some JH80.Rules.apply_replace_spaces_with_special_chars := by rfl
    unfold JH80.Rules.apply_rule_to_name
    rw [hl]
    simp only [JH80.Rules.apply_replace_spaces_with_special_chars, h,
      Bool.not_false, if_pos]
    split <;> rfl

/-- Witness for C6_rule_application_total at concrete inputs. -/
theorem C6_rule_application_total_witness :
    JH80.Rules.apply_rule_to_name none (fun _ => 0) "John".data "mystery_rule"
        = "John".data ∧
    JH80.Rules.apply_rule_to_name none (fun _ => 0) "J".data "delete_random_letter"
        = "J".data ∧
    JH80.Rules.apply_rule_to_name none (fun _ => 0) "John".data
        "replace_spaces_with_special_characters" = "John".data :=
  ⟨C6_rule_application_total.1 "mystery_rule" (by decide) none (fun _ => 0) "John".data,
   C6_rule_application_total.2.1 none (fun _ => 0) "J".data (by decide),
   C6_rule_application_total.2.2 none (fun _ => 0) "John".data (by decide)⟩

/-- C8: the phonetic generator (attempt budget `count * 3`) and the
orthographic generator (attempt budget `count * 5`) are total functions
of their bounded loops and return at most `count` variations. -/
theorem C8_bounded_generation (name : Str) (count : Nat) (r : RStream) (p : Nat) :
    (JH80.Name.generate_phonetic_variations name count).length ≤ count ∧
    (JH80.NonRule.generate_orthographic_variations r p name count).1.length ≤ count := by
  constructor
  · unfold JH80.Name.generate_phonetic_variations
    simpa using List.length_take_le count _
  · unfold JH80.NonRule.generate_orthographic_variations
    generalize JH80.NonRule.orthoLoop r name count (count * 5)
      ([], [lowerStr name], p) = st
    obtain ⟨vars, used, pp⟩ := st
    simpa using List.length_take_le count vars

/-- C10: under nonnegative tier fractions summing to at most 1, the
truncated base counts of `get_similarity_counts` sum to at most the
variation count, and the returned per-tier counts sum to exactly the
variation count. -/
theorem C10_similarity_counts_sum (n : Nat) (d : JH80.ParseQuery.SimDist)
    (hl : 0 ≤ d.getL) (hm : 0 ≤ d.getM) (hf : 0 ≤ d.getF)
    (hsum : d.getL + d.getM + d.getF ≤ 1) :
    pyTrunc ((n : ℚ) * d.getL) + pyTrunc ((n : ℚ) * d.getM)
        + pyTrunc ((n : ℚ) * d.getF) ≤ (n : ℤ) ∧
    (JH80.ParseQuery.get_similarity_counts n d).1
        + (JH80.ParseQuery.get_similarity_counts n d).2.1
        + (JH80.ParseQuery.get_similarity_counts n d).2.2 = (n : ℤ) := by
  have hln : (0 : ℚ) ≤ (n : ℚ) * d.getL := mul_nonneg (Nat.cast_nonneg n) hl
  have hmn : (0 : ℚ) ≤ (n : ℚ) * d.getM := mul_nonneg (Nat.cast_nonneg n) hm
  have hfn : (0 : ℚ) ≤ (n : ℚ) * d.getF := mul_nonneg (Nat.cast_nonneg n) hf
  have el : pyTrunc ((n : ℚ) * d.getL) = ⌊(n : ℚ) * d.getL⌋ := by
    unfold pyTrunc; rw [if_pos hln]
  have em : pyTrunc ((n : ℚ) * d.getM) = ⌊(n : ℚ) * d.getM⌋ := by
    unfold pyTrunc; rw [if_pos hmn]
  have ef : pyTrunc ((n : ℚ) * d.getF) = ⌊(n : ℚ) * d.getF⌋ := by
    unfold pyTrunc; rw [if_pos hfn]
  have bound : pyTrunc ((n : ℚ) * d.getL) + pyTrunc ((n : ℚ) * d.getM)
      + pyTrunc ((n : ℚ) * d.getF) ≤ (n : ℤ) := by
    rw [el, em, ef]
    have h1 := Int.floor_le ((n : ℚ) * d.getL)
    have h2 := Int.floor_le ((n : ℚ) * d.getM)
    have h3 := Int.floor_le ((n : ℚ) * d.getF)
    have htot : (n : ℚ) * d.getL + (n : ℚ) * d.getM + (n : ℚ) * d.getF ≤ (n : ℚ) := by
      have := mul_le_mul_of_nonneg_left hsum (Nat.cast_nonneg n : (0 : ℚ) ≤ (n : ℚ))
      nlinarith
    have : ((⌊(n : ℚ) * d.getL⌋ + ⌊(n : ℚ) * d.getM⌋ + ⌊(n : ℚ) * d.getF⌋ : ℤ) : ℚ)
        ≤ (n : ℚ) := by push_cast; linarith
    exact_mod_cast this
  refine ⟨bound, ?_⟩
  simp only [JH80.ParseQuery.get_similarity_counts]
  split_ifs <;> dsimp only <;> omega

/-- Witness for C10_similarity_counts_sum at `n = 11` and the 30/40/30
distribution. -/
theorem C10_similarity_counts_sum_witness :
    pyTrunc ((11 : ℚ) * distC10.getL) + pyTrunc ((11 : ℚ) * distC10.getM)
        + pyTrunc ((11 : ℚ) * distC10.getF) ≤ (11 : ℤ) ∧
    (JH80.ParseQuery.get_similarity_counts 11 distC10).1
        + (JH80.ParseQuery.get_similarity_counts 11 distC10).2.1
        + (JH80.ParseQuery.get_similarity_counts 11 distC10).2.2 = (11 : ℤ) :=
  C10_similarity_counts_sum 11 distC10
    (by norm_num [JH80.ParseQuery.SimDist.getL, distC10])
    (by norm_num [JH80.ParseQuery.SimDist.getM, distC10])
    (by norm_num [JH80.ParseQuery.SimDist.getF, distC10])
    (by norm_num [JH80.ParseQuery.SimDist.getL, JH80.ParseQuery.SimDist.getM,
      JH80.ParseQuery.SimDist.getF, distC10])

end JH80

namespace JH80

open JH80.ParseQuery JH80.Name JH80.NonRule JH80.Rules JH80.Spec

set_option maxRecDepth 8000 in
/-- C3: parsing the sample instruction text yields variation count 11,
phonetic distribution 30/40/30, orthographic distribution 50/50 (Far
absent), rule fraction 0.51, and exactly the `reorder_name_parts`
rule. -/
theorem C3_sample_parse :
    JH80.ParseQuery.parse_query_template sample_query =
      { variation_count := 11, rule_percentage := 51 / 100,
        rules := ["reorder_name_parts"],
        phonetic_similarity := ⟨some (3 / 10), some (4 / 10), some (3 / 10)⟩,
        orthographic_similarity := ⟨some (1 / 2), some (1 / 2), none⟩,
        uav_seed_name := none } := by
  have h : JH80.ParseQuery.parse_query_template sample_query =
      { variation_count := 11, rule_percentage := ((51 : ℕ) : ℚ) / 100,
        rules := ["reorder_name_parts"],
        phonetic_similarity :=
          ⟨some (((30 : ℕ) : ℚ) / 100), some (((40 : ℕ) : ℚ) / 100),
           some (((30 : ℕ) : ℚ) / 100)⟩,
        orthographic_similarity :=
          ⟨some (((50 : ℕ) : ℚ) / 100), some (((50 : ℕ) : ℚ) / 100), none⟩,
        uav_seed_name := none } := by rfl
  rw [h]
  simp only [JH80.ParseQuery.Requirements.mk.injEq, JH80.ParseQuery.SimDist.mk.injEq,
    Option.some.injEq]
  norm_num

/-- A blacklisted character in a nonempty string triggers the
problematic-pattern check. -/
lemma blacklist_implies_problematic (text : Str) (hne : text ≠ [])
    (hany : JH80.NonRule.problematic_chars.any (fun c => c ∈ text) = true) :
    JH80.NonRule.contains_problematic_patterns text = true := by
  unfold JH80.NonRule.contains_problematic_patterns
  rw [if_neg hne]
  split_ifs <;> simp [hany]

/-- C4 (counterexample): none of the rejection conditions listed by the
claim holds for candidate "smithy" against seed "Smith", yet the
acceptance predicate rejects it (the all-lowercase check of
`_contains_problematic_patterns` fires), refuting the claim's
"otherwise returns true". -/
theorem C4_counterexample :
    JH80.Spec.claimC4Rejects "smithy".data "Smith".data = false ∧
    JH80.NonRule.validate_variation_quality "smithy".data "Smith".data = false := by
  constructor <;> decide

/-- C4 (amended): the acceptance predicate rejects exactly when one of
the claim's listed conditions holds, or additionally when the candidate
is empty or whitespace-only, or triggers `_contains_problematic_patterns`
(which covers the punctuation blacklist and additionally generic
placeholder words, irregular spacing, leading/trailing
apostrophe/hyphen/period, and all-uppercase/all-lowercase strings of
length above 2). -/
theorem C4_reject_characterization (variation original_name : Str) :
    JH80.NonRule.validate_variation_quality variation original_name = false ↔
      (JH80.Spec.claimC4Rejects variation original_name = true ∨
       variation = [] ∨ JH80.NonRule.pyIsSpace variation = true ∨
       JH80.NonRule.contains_problematic_patterns variation = true) := by
  unfold JH80.NonRule.validate_variation_quality
  split_ifs with h1 h2 h3 h4 h5 h6 h7
  · simp only [Bool.or_eq_true, decide_eq_true_eq] at h1
    tauto
  · simp only [Bool.or_eq_true, decide_eq_true_eq] at h1
    push_neg at h1
    simp [JH80.Spec.claimC4Rejects, h2]
  · simp [JH80.Spec.claimC4Rejects, h3]
  · simp [JH80.Spec.claimC4Rejects, h4]
  · simp [JH80.Spec.claimC4Rejects, h5]
  · simp [h6]
  · simp [JH80.Spec.claimC4Rejects, h7]
  · simp only [Bool.or_eq_true, decide_eq_true_eq] at h1
    push_neg at h1
    constructor
    · intro hfalse
      exact absurd hfalse (by simp)
    · rintro (hc | he | hs | hp)
      · simp only [JH80.Spec.claimC4Rejects, Bool.or_eq_true, decide_eq_true_eq] at hc
        rcases hc with ((((heq | hlen) | haddr) | hdob) | hchar) | hword
        · exact absurd heq h2
        · exact absurd hlen h3
        · exact absurd haddr (by simp [h4])
        · exact absurd hdob (by simp [h5])
        · exact absurd (blacklist_implies_problematic variation h1.1 hchar)
            (by simp [h6])
        · exact absurd hword h7
      · exact absurd he h1.1
      · exact absurd hs (by simp [h1.2])
      · exact absurd hp (by simp [h6])

/-- Jaccard similarity of "john" with itself is 1. -/
lemma sim_john_john :
    JH80.NonRule.calculate_character_similarity ['j', 'o', 'h', 'n'] ['j', 'o', 'h', 'n']
      = 1 := by
  have hi : ((lowerStr ['j', 'o', 'h', 'n']).toFinset
      ∩ (lowerStr ['j', 'o', 'h', 'n']).toFinset).card = 4 := by decide
  have hu : ((lowerStr ['j', 'o', 'h', 'n']).toFinset
      ∪ (lowerStr ['j', 'o', 'h', 'n']).toFinset).card = 4 := by decide
  simp only [JH80.NonRule.calculate_character_similarity, hi, hu]
  norm_num
  decide

/-- C5 (counterexample): for candidate "John" with accepted set
{"john"}, the claim's condition holds (character-set Jaccard similarity
is 1 > 0.9), yet `_is_too_similar_to_existing` returns false because it
skips case-insensitively equal entries — so the claimed "exactly when"
fails. -/
theorem C5_counterexample :
    JH80.Spec.claimC5NearDup "John".data ["john".data] = true ∧
    JH80.NonRule.is_too_similar_to_existing "John".data ["john".data] = false := by
  constructor
  · have hl : lowerStr "John".data = ['j', 'o', 'h', 'n'] := by decide
    have hl2 : lowerStr "john".data = ['j', 'o', 'h', 'n'] := by decide
    simp only [JH80.Spec.claimC5NearDup, List.any_cons, List.any_nil, Bool.or_false,
      hl, hl2, Bool.or_eq_true, decide_eq_true_eq]
    left
    rw [sim_john_john]
    norm_num
  · decide

/-- C5 (amended): a candidate is rejected as a near-duplicate exactly
when some accepted string that differs from it case-insensitively has
character-set Jaccard similarity above 0.9 with it, or forms a
near-duplicate pattern with it (single leading/trailing character
difference as a substring, or the curated nickname table), comparisons
on the lowered strings. -/
theorem C5_near_duplicate_characterization (candidate : Str) (existing : List Str) :
    JH80.NonRule.is_too_similar_to_existing candidate existing = true ↔
      ∃ e ∈ existing, lowerStr e ≠ lowerStr candidate ∧
        (JH80.NonRule.calculate_character_similarity (lowerStr candidate) (lowerStr e)
            > 9 / 10 ∨
         JH80.NonRule.are_near_duplicates (lowerStr candidate) (lowerStr e) = true) := by
  unfold JH80.NonRule.is_too_similar_to_existing
  rw [List.any_eq_true]
  constructor
  · rintro ⟨e, he, hbody⟩
    refine ⟨e, he, ?_⟩
    revert hbody
    split_ifs with heq hsim
    · intro h
      exact absurd h (by simp)
    · intro _
      exact ⟨fun h => heq h.symm, Or.inl hsim⟩
    · intro hdup
      exact ⟨fun h => heq h.symm, Or.inr hdup⟩
  · rintro ⟨e, he, hne, hcond⟩
    refine ⟨e, he, ?_⟩
    split_ifs with heq hsim
    · exact absurd heq.symm hne
    · rfl
    · rcases hcond with hc | hc
      · exact absurd hc hsim
      · exact hc

end JH80

namespace JH80

open JH80.ParseQuery JH80.Name

/-- Appending through `addUnique` never removes entries from the used
set. -/
lemma addUnique_used_mono (x : Str) :
    ∀ (l : List Str) (vars used : List Str), x ∈ used →
      x ∈ (addUnique (vars, used) l).2 := by
  intro l
  induction l with
  | nil => intro vars used h; simpa [addUnique] using h
  | cons w rest ih =>
    intro vars used h
    unfold addUnique
    by_cases hw : lowerStr w ∉ used
    · rw [if_pos hw]
      exact ih (vars ++ [w]) (used ++ [lowerStr w]) (List.mem_append_left _ h)
    · rw [if_neg hw]
      exact ih vars used h

/-- Candidates filtered through `addUnique` never lower-equal a string
already recorded in the used set. -/
lemma addUnique_ne (x : Str) :
    ∀ (l : List Str) (vars used : List Str), x ∈ used →
      (∀ v ∈ vars, lowerStr v ≠ x) →
      ∀ v ∈ (addUnique (vars, used) l).1, lowerStr v ≠ x := by
  intro l
  induction l with
  | nil => intro vars used _ hv; simpa [addUnique] using hv
  | cons w rest ih =>
    intro vars used hx hv
    unfold addUnique
    by_cases hw : lowerStr w ∉ used
    · rw [if_pos hw]
      refine ih (vars ++ [w]) (used ++ [lowerStr w]) (List.mem_append_left _ hx) ?_
      intro v hvmem
      rcases List.mem_append.mp hvmem with h | h
      · exact hv v h
      · rcases List.mem_singleton.mp h with rfl
        exact fun hc => hw (by rw [hc]; exact hx)
    · rw [if_neg hw]
      exact ih vars used hx hv

/-- `addUniqueCap` analogue of `addUnique_used_mono`. -/
lemma addUniqueCap_used_mono (cap : Nat) (x : Str) :
    ∀ (l : List Str) (vars used : List Str), x ∈ used →
      x ∈ (addUniqueCap cap (vars, used) l).2 := by
  intro l
  induction l with
  | nil => intro vars used h; simpa [addUniqueCap] using h
  | cons w rest ih =>
    intro vars used h
    unfold addUniqueCap
    by_cases hw : lowerStr w ∉ used ∧ vars.length < cap
    · rw [if_pos hw]
      exact ih (vars ++ [w]) (used ++ [lowerStr w]) (List.mem_append_left _ h)
    · rw [if_neg hw]
      exact ih vars used h

/-- `addUniqueCap` analogue of `addUnique_ne`. -/
lemma addUniqueCap_ne (cap : Nat) (x : Str) :
    ∀ (l : List Str) (vars used : List Str), x ∈ used →
      (∀ v ∈ vars, lowerStr v ≠ x) →
      ∀ v ∈ (addUniqueCap cap (vars, used) l).1, lowerStr v ≠ x := by
  intro l
  induction l with
  | nil => intro vars used _ hv; simpa [addUniqueCap] using hv
  | cons w rest ih =>
    intro vars used hx hv
    unfold addUniqueCap
    by_cases hw : lowerStr w ∉ used ∧ vars.length < cap
    · rw [if_pos hw]
      refine ih (vars ++ [w]) (used ++ [lowerStr w]) (List.mem_append_left _ hx) ?_
      intro v hvmem
      rcases List.mem_append.mp hvmem with h | h
      · exact hv v h
      · rcases List.mem_singleton.mp h with rfl
        exact fun hc => hw.1 (by rw [hc]; exact hx)
    · rw [if_neg hw]
      exact ih vars used hx hv

/-- The used-set/freshness invariant preserved by every appending stage
of the pipeline: `x` stays recorded and no accumulated variation
lower-equals `x`. -/
def StageInv (x : Str) (st : List Str × List Str × Nat) : Prop :=
  x ∈ st.2.1 ∧ ∀ v ∈ st.1, lowerStr v ≠ x

lemma latinStageRules_inv (r : RStream) (name : Str) (q : Requirements)
    (st : List Str × List Str × Nat) (x : Str) (h : StageInv x st) :
    StageInv x (latinStageRules r name q st) := by
  simp only [latinStageRules]
  split_ifs with hc
  · exact ⟨addUnique_used_mono x _ st.1 st.2.1 h.1,
      addUnique_ne x _ st.1 st.2.1 h.1 h.2⟩
  · exact h

lemma latinStagePhonetic_inv (name : Str) (q : Requirements)
    (st : List Str × List Str × Nat) (x : Str) (h : StageInv x st) :
    StageInv x (latinStagePhonetic name q st) := by
  simp only [latinStagePhonetic]
  split_ifs with hc
  · exact ⟨addUniqueCap_used_mono _ x _ st.1 st.2.1 h.1,
      addUniqueCap_ne _ x _ st.1 st.2.1 h.1 h.2⟩
  · exact h

lemma latinStageOrtho_inv (r : RStream) (name : Str) (q : Requirements)
    (st : List Str × List Str × Nat) (x : Str) (h : StageInv x st) :
    StageInv x (latinStageOrtho r name q st) := by
  simp only [latinStageOrtho]
  split_ifs with hc
  · exact ⟨addUniqueCap_used_mono _ x _ st.1 st.2.1 h.1,
      addUniqueCap_ne _ x _ st.1 st.2.1 h.1 h.2⟩
  · exact h

/-- No output of `_generate_latin_variations` lower-equals the seed. -/
lemma generate_latin_ne (r : RStream) (p : Nat) (name : Str) (q : Requirements) :
    ∀ v ∈ (generate_latin_variations r p name q).1, lowerStr v ≠ lowerStr name := by
  have h0 : StageInv (lowerStr name) ([], [lowerStr name], p) :=
    ⟨List.mem_singleton_self _, by intro v hv; cases hv⟩
  have h := latinStageOrtho_inv r name q _ _
    (latinStagePhonetic_inv name q _ _
      (latinStageRules_inv r name q ([], [lowerStr name], p) _ h0))
  exact h.2

/-- No output of `_generate_non_latin_variations` lower-equals the
seed. -/
lemma generate_non_latin_ne (tr : Option (Str → Str)) (r : RStream) (p : Nat)
    (name : Str) (script_type : String) (q : Requirements) (fuel : Nat)
    (vars : List Str) (pout : Nat)
    (h : generate_non_latin_variations tr r p name script_type q fuel
      = some (vars, pout)) :
    ∀ v ∈ vars, lowerStr v ≠ lowerStr name := by
  unfold generate_non_latin_variations at h
  cases hsv : apply_script_transformations r p name script_type
      (q.variation_count / 2) fuel with
  | none => rw [hsv] at h; exact absurd h (by simp)
  | some sv =>
    rw [hsv] at h
    have hvu : ∀ v ∈ (addUnique ([], [lowerStr name]) sv.1).1,
        lowerStr v ≠ lowerStr name :=
      addUnique_ne (lowerStr name) sv.1 [] [lowerStr name]
        (List.mem_singleton_self _) (by intro v hv; cases hv)
    have hvu2 : lowerStr name ∈ (addUnique ([], [lowerStr name]) sv.1).2 :=
      addUnique_used_mono (lowerStr name) sv.1 [] [lowerStr name]
        (List.mem_singleton_self _)
    cases tr with
    | none =>
      simp only [Option.some.injEq, Prod.mk.injEq] at h
      rw [← h.1]
      exact hvu
    | some f =>
      dsimp only at h
      split_ifs at h with hlen ht
      · simp only [Option.some.injEq, Prod.mk.injEq] at h
        rw [← h.1]
        exact addUniqueCap_ne _ (lowerStr name) _ _ _ hvu2 hvu
      · simp only [Option.some.injEq, Prod.mk.injEq] at h
        rw [← h.1]
        exact hvu
      · simp only [Option.some.injEq, Prod.mk.injEq] at h
        rw [← h.1]
        exact hvu

lemma ensureInsert_inv (r : RStream) (base : Str)
    (st : List Str × List Str × Nat) (x : Str) (h : StageInv x st) :
    StageInv x (ensureInsert r base st) := by
  simp only [ensureInsert]
  by_cases hw : lowerStr (insertAt base (randint r st.2.2 0 base.length).1
      (choiceL r (randint r st.2.2 0 base.length).2 "aeiou".data 'a').1) ∉ st.2.1
  · rw [if_pos hw]
    refine ⟨List.mem_append_left _ h.1, ?_⟩
    intro v hv
    rcases List.mem_append.mp hv with hv | hv
    · exact h.2 v hv
    · rcases List.mem_singleton.mp hv with rfl
      exact fun hc => hw (by rw [hc]; exact h.1)
  · rw [if_neg hw]
    exact h

lemma ensureBody_inv (r : RStream) (orig : Str)
    (st : List Str × List Str × Nat) (x : Str) (h : StageInv x st) :
    StageInv x (ensureBody r orig st) := by
  simp only [ensureBody]
  split_ifs with hb hrem
  · refine ⟨List.mem_append_left _ h.1, ?_⟩
    intro v hv
    rcases List.mem_append.mp hv with hv | hv
    · exact h.2 v hv
    · rcases List.mem_singleton.mp hv with rfl
      exact fun hc => hrem.2 (by rw [hc]; exact h.1)
  · exact ensureInsert_inv r _ _ x h
  · exact ensureInsert_inv r _ _ x h

/-- Any successful result of the `_ensure_variation_count` loop has
exactly the target length. -/
lemma ensureLoop_length (r : RStream) (orig : Str) (target : Nat) :
    ∀ (fuel : Nat) (st : List Str × List Str × Nat) (l : List Str),
      ensureLoop r orig target fuel st = some l → l.length = target := by
  intro fuel
  induction fuel with
  | zero =>
    intro st l h
    unfold ensureLoop at h
    split_ifs at h with hlen
    simp only [Option.some.injEq] at h
    rw [← h]
    simp only [List.length_take]
    omega
  | succ fuel ih =>
    intro st l h
    unfold ensureLoop at h
    split_ifs at h with hlen
    · exact ih _ _ h
    · simp only [Option.some.injEq] at h
      rw [← h]
      simp only [List.length_take]
      omega

/-- Any successful result of the `_ensure_variation_count` loop keeps
the freshness invariant. -/
lemma ensureLoop_ne (r : RStream) (orig : Str) (target : Nat) (x : Str) :
    ∀ (fuel : Nat) (st : List Str × List Str × Nat) (l : List Str),
      StageInv x st → ensureLoop r orig target fuel st = some l →
      ∀ v ∈ l, lowerStr v ≠ x := by
  intro fuel
  induction fuel with
  | zero =>
    intro st l hinv h
    unfold ensureLoop at h
    split_ifs at h with hlen
    simp only [Option.some.injEq] at h
    rw [← h]
    intro v hv
    exact hinv.2 v (List.take_subset _ _ hv)
  | succ fuel ih =>
    intro st l hinv h
    unfold ensureLoop at h
    split_ifs at h with hlen
    · exact ih _ _ (ensureBody_inv r orig st x hinv) h
    · simp only [Option.some.injEq] at h
      rw [← h]
      intro v hv
      exact hinv.2 v (List.take_subset _ _ hv)

/-- `_ensure_variation_count` returns exactly `target_count` variations
whenever it returns. -/
lemma ensure_variation_count_length (r : RStream) (p : Nat) (vars : List Str)
    (orig : Str) (target fuel : Nat) (l : List Str)
    (h : ensure_variation_count r p vars orig target fuel = some l) :
    l.length = target := by
  unfold ensure_variation_count at h
  split_ifs at h with hlen
  · simp only [Option.some.injEq] at h
    rw [← h]
    simp only [List.length_take]
    omega
  · exact ensureLoop_length r orig target fuel _ l h

/-- `_ensure_variation_count` preserves seed freshness. -/
lemma ensure_variation_count_ne (r : RStream) (p : Nat) (vars : List Str)
    (orig : Str) (target fuel : Nat) (l : List Str)
    (hvars : ∀ v ∈ vars, lowerStr v ≠ lowerStr orig)
    (h : ensure_variation_count r p vars orig target fuel = some l) :
    ∀ v ∈ l, lowerStr v ≠ lowerStr orig := by
  unfold ensure_variation_count at h
  split_ifs at h with hlen
  · simp only [Option.some.injEq] at h
    rw [← h]
    intro v hv
    exact hvars v (List.take_subset _ _ hv)
  · refine ensureLoop_ne r orig target (lowerStr orig) fuel _ l ⟨?_, hvars⟩ h
    exact List.mem_append_right _ (List.mem_singleton_self _)

/-- C1: whenever the name-variation pipeline returns (the top-up loop
of `_ensure_variation_count` is not bounded in the source, hence the
fuel hypothesis), the returned list has exactly
`parsed_query.variation_count` elements — padding when the generators
fall short and truncating when they overproduce. -/
theorem C1_exact_count (tr : Option (Str → Str)) (r : RStream) (name : Str)
    (q : JH80.ParseQuery.Requirements) (fuel : Nat) (res : List Str)
    (h : JH80.Name.generate_name_variations tr r name q fuel = some res) :
    res.length = q.variation_count := by
  simp only [JH80.Name.generate_name_variations] at h
  split_ifs at h with hs
  · exact ensure_variation_count_length _ _ _ _ _ _ _ h
  · cases hnl : JH80.Name.generate_non_latin_variations tr r 0 name
        (JH80.Name.detect_script_type name) q fuel with
    | none => rw [hnl] at h; exact absurd h (by simp)
    | some vp =>
      rw [hnl] at h
      exact ensure_variation_count_length _ _ _ _ _ _ _ h

/-- Witness for C1_exact_count: a terminating concrete run. -/
theorem C1_exact_count_witness :
    (["An".data, "@nn".data, "aAnn".data] : List Str).length = 3 :=
  C1_exact_count none (fun _ => 0) "Ann".data reqAnn 50
    ["An".data, "@nn".data, "aAnn".data] (by decide)

/-- C7: no returned variation equals the seed case-insensitively —
every appending site of the pipeline and of the fallback padding checks
the candidate against a used set seeded with the lowercased name. -/
theorem C7_no_seed_collision (tr : Option (Str → Str)) (r : RStream) (name : Str)
    (q : JH80.ParseQuery.Requirements) (fuel : Nat) (res : List Str)
    (h : JH80.Name.generate_name_variations tr r name q fuel = some res) :
    ∀ v ∈ res, lowerStr v ≠ lowerStr name := by
  simp only [JH80.Name.generate_name_variations] at h
  split_ifs at h with hs
  · exact ensure_variation_count_ne _ _ _ _ _ _ _
      (generate_latin_ne r 0 name q) h
  · cases hnl : JH80.Name.generate_non_latin_variations tr r 0 name
        (JH80.Name.detect_script_type name) q fuel with
    | none => rw [hnl] at h; exact absurd h (by simp)
    | some vp =>
      rw [hnl] at h
      exact ensure_variation_count_ne _ _ _ _ _ _ _
        (generate_non_latin_ne tr r 0 name _ q fuel vp.1 vp.2 (by rw [hnl])) h

/-- Witness for C7_no_seed_collision on a concrete run. -/
theorem C7_no_seed_collision_witness :
    lowerStr "Boeb".data ≠ lowerStr "Bob".data :=
  C7_no_seed_collision none rBob "Bob".data reqBob 60
    ["Boeb".data, "Bo".data, "Boob".data, "ob".data, "B0b".data] (by decide)
    "Boeb".data (by decide)

/-- C9: the pipeline is deterministic given the random source — it is a
pure function of the seed, the parsed requirement and the random
stream, so two runs with pointwise-equal streams produce identical
results. -/
theorem C9_deterministic (tr : Option (Str → Str)) (r1 r2 : RStream)
    (h : ∀ n, r1 n = r2 n) (name : Str) (q : JH80.ParseQuery.Requirements)
    (fuel : Nat) :
    JH80.Name.generate_name_variations tr r1 name q fuel
      = JH80.Name.generate_name_variations tr r2 name q fuel := by
  have : r1 = r2 := funext h
  rw [this]

/-- Witness for C9_deterministic: two syntactically different but
pointwise-equal streams. -/
theorem C9_deterministic_witness :
    JH80.Name.generate_name_variations none rBob "Bob".data reqBob 60
      = JH80.Name.generate_name_variations none rBob2 "Bob".data reqBob 60 :=
  C9_deterministic none rBob rBob2
    (fun n => by simp [rBob, rBob2, Nat.mul_comm]) "Bob".data reqBob 60

end JH80
